import Mathlib

/-!
Verification development for the avito-library crawling stack: a shallow
embedding of the captcha offset cache (`capcha/cache_manager.py`,
`capcha/solver_utils.py`, `capcha/solve_slider_once.py`), the task queue and
proxy pool (`reuse_utils/task_queue.py`, `reuse_utils/proxy_pool.py`), the
page-state detection retry loop (`detectors/detect_page_state.py`) and the
catalog pagination engine (`parsers/catalog_parser/catalog_parser_v2.py`,
`parsers/catalog_parser/models.py`), with theorems settling the frozen
behavioural claims about those components.
-/

namespace AvitoLibrary

/-! ## Captcha offset cache (capcha/cache_manager.py, capcha/cache_io.py) -/

/-- One cached Geetest offset entry: the fields of the JSON objects managed by
`cache_manager.py` (`offset`, `definitely`, `fail_count`); the content hash is
the key under which the entry is stored. -/
structure CacheEntry where
  offset : Int
  definitely : Bool
  failCount : Int
  deriving Repr, DecidableEq

/-- The in-memory cache dict keyed by content hash (Python dict lookup
semantics). -/
def Cache : Type := String → Option CacheEntry

/-- `FAILURE_THRESHOLD` from cache_manager.py line 19. -/
def FAILURE_THRESHOLD : Int := 5

/-- Store an entry under a key (Python `cache[hash_key] = entry`). -/
def cacheSet (c : Cache) (k : String) (e : CacheEntry) : Cache :=
  fun k2 => if k2 = k then some e else c k2

/-- Remove the entry under a key (Python `cache.pop(hash_key, None)`). -/
def cachePop (c : Cache) (k : String) : Cache :=
  fun k2 => if k2 = k then none else c k2

/-- `record_failure` (cache_manager.py lines 78-99, JSON storage mode): bump
the failure counter of the entry for `hashKey`; missing entry is a no-op
returning `false`; when the bumped counter reaches `FAILURE_THRESHOLD` the
entry is removed and `true` is returned, otherwise the entry is stored back
with the bumped counter and `false` is returned. Persistence (`save_cache`)
is I/O and not modelled. -/
def record_failure (cache : Cache) (hashKey : String) : Cache × Bool :=
  match cache hashKey with
  | none => (cache, false)
  | some entry =>
    let failCount := entry.failCount + 1
    if FAILURE_THRESHOLD ≤ failCount then
      (cachePop cache hashKey, true)
    else
      (cacheSet cache hashKey { entry with failCount := failCount }, false)

/-- `get_offset` (cache_manager.py lines 36-49, JSON storage mode): an entry
is only served when present and flagged `definitely`. -/
def get_offset (cache : Cache) (hashKey : String) : Option CacheEntry :=
  match cache hashKey with
  | none => none
  | some e => if e.definitely then some e else none

/-- `update_offset` (cache_manager.py lines 52-75, JSON storage mode): upsert
a normalized entry; `fail_count` is clamped to be non-negative. -/
def update_offset (cache : Cache) (hashKey : String) (offset : Int)
    (definitely : Bool) (failCount : Int) : Cache :=
  cacheSet cache hashKey
    { offset := offset, definitely := definitely, failCount := max 0 failCount }

/-- `record_failure` applied `n` times to the same key (n consecutive failed
reuses of a cached offset). -/
def recordFailureIter (cache : Cache) (hashKey : String) : Nat → Cache
  | 0 => cache
  | n + 1 => (record_failure (recordFailureIter cache hashKey n) hashKey).1

/-! ## Offset computation (capcha/solver_utils.py) -/

/-- Column indices of one row of the correlation surface whose value is at
least the threshold, in increasing order: the per-row content of
`np.where(result >= threshold)`. -/
def rowMatches (row : List ℚ) (t : ℚ) : List Nat :=
  (List.range row.length).filter (fun c => decide (t ≤ row.getD c 0))

/-- All `(row, column)` positions of the correlation surface whose value is at
least the threshold, in row-major order — the order in which `np.where`
enumerates a 2-D array. -/
def matchPositions (result : List (List ℚ)) (t : ℚ) : List (Nat × Nat) :=
  (List.range result.length).flatMap
    (fun r => (rowMatches (result.getD r []) t).map (fun c => (r, c)))

/-- `calculate_offset` (solver_utils.py lines 17-34). The cv2 pipeline
(`imdecode`, vertical-band crop, grayscale, fixed-threshold binarization,
`matchTemplate` with `TM_CCOEFF_NORMED`) is external library code; its output,
the correlation surface, is the input here. Lines 33-34 then select
`np.where(result >= threshold)` and return the last column index in row-major
order (`x_coords[-1]`) plus the 37-pixel bias, or 0 when nothing matched. -/
def calculate_offset (result : List (List ℚ)) (t : ℚ) : Int :=
  match (matchPositions result t).getLast? with
  | some rc => Int.ofNat rc.2 + 37
  | none => 0

/-- Modelled from the spec: the spec says the drag offset is "the right-most
x-position whose correlation exceeds 0.5" over the whole cropped band, plus
the fixed bias — i.e. the maximal column over all rows, with a strict
threshold comparison. Stated for comparison with `calculate_offset`. -/
def specRightmostOffset (result : List (List ℚ)) : Option Int :=
  let cols :=
    (List.range result.length).flatMap
      (fun r => (List.range (result.getD r []).length).filter
        (fun c => decide (mkRat 1 2 < (result.getD r []).getD c 0)))
  match cols.max? with
  | some c => some (Int.ofNat c + 37)
  | none => none

/-! ## One slider solve attempt (capcha/solve_slider_once.py) -/

/-- Result of the cache-relevant portion of one `solve_slider_once` call. -/
structure SolveStepResult where
  cache : Cache
  moveOffset : Int
  solved : Bool

/-- The cache- and drag-relevant behaviour of one `solve_slider_once` call
(solve_slider_once.py lines 53-119). DOM reads, image fetches and the
press-move-release drag are I/O; `correlationOffset` stands for the
`calculate_offset` value computed on a cache miss, and `solvedPoll` for the
outcome of the bounded verification poll. On a hit the cached offset is used
(`used_cached_offset = true`). The drag distance is `base_offset + 37`
(line 78). On success the entry is upserted with `definitely=true` and
`fail_count=0`; on failure `record_failure` runs only when the offset came
from the cache. -/
def solveSliderCacheStep (cache : Cache) (hContent : String)
    (correlationOffset : Int) (solvedPoll : Bool) : SolveStepResult :=
  let cacheEntry := get_offset cache hContent
  let usedCachedOffset := cacheEntry.isSome
  let baseOffset :=
    match cacheEntry with
    | none => correlationOffset
    | some e => e.offset
  let moveOffset := baseOffset + 37
  if solvedPoll then
    { cache := update_offset cache hContent baseOffset true 0,
      moveOffset := moveOffset, solved := true }
  else if usedCachedOffset then
    { cache := (record_failure cache hContent).1,
      moveOffset := moveOffset, solved := false }
  else
    { cache := cache, moveOffset := moveOffset, solved := false }

/-! ## Task queue (reuse_utils/task_queue.py)

Task keys and payloads are abstracted to naturals. The `asyncio` lock makes
every method body atomic, so the queue is modelled as a sequential state
machine; a `get()` call issued while the queue is paused blocks on the pause
event and hands out nothing, modelled as a no-op returning `none`. -/

/-- `TaskState` (task_queue.py lines 39-44). -/
inductive TaskState
  | pending
  | inProgress
  | returned
  deriving Repr, DecidableEq

/-- `ProcessingTask` (task_queue.py lines 47-58); timestamps are not
modelled. -/
structure ProcessingTask where
  taskKey : Nat
  payload : Nat
  attempt : Nat
  state : TaskState
  lastProxy : Option String
  deriving Repr, DecidableEq

/-- The `TaskQueue` state: `_max_attempts`, `_paused`, `_pending_order`
(deque, head = front) and `_tasks` (insertion-ordered dict as an association
list with unique keys). -/
structure TaskQueue where
  maxAttempts : Nat
  paused : Bool
  pendingOrder : List Nat
  tasks : List (Nat × ProcessingTask)
  deriving Repr, DecidableEq

/-- Dict lookup `self._tasks.get(task_key)`. -/
def tasksGet (ts : List (Nat × ProcessingTask)) (k : Nat) : Option ProcessingTask :=
  (ts.find? (fun kv => kv.1 == k)).map (fun kv => kv.2)

/-- Dict update of an existing key in place (Python mutates the stored task
object); appends when the key is absent. -/
def tasksSet (ts : List (Nat × ProcessingTask)) (k : Nat) (v : ProcessingTask) :
    List (Nat × ProcessingTask) :=
  if ts.any (fun kv => kv.1 == k) then
    ts.map (fun kv => if kv.1 == k then (k, v) else kv)
  else ts ++ [(k, v)]

/-- Dict removal `self._tasks.pop(task_key, None)`. -/
def tasksPop (ts : List (Nat × ProcessingTask)) (k : Nat) :
    List (Nat × ProcessingTask) :=
  ts.filter (fun kv => kv.1 != k)

/-- `TaskQueue.__init__` (task_queue.py lines 89-98); the `max_attempts >= 1`
check is the caller's obligation here. -/
def initQueue (maxAttempts : Nat) : TaskQueue :=
  { maxAttempts := maxAttempts, paused := false, pendingOrder := [], tasks := [] }

/-- One iteration of the `put_many` insertion loop (task_queue.py lines
106-114): keys already known are skipped, fresh keys are appended to the dict
and the pending order. -/
def putManyStep (acc : TaskQueue × Nat) (item : Nat × Nat) : TaskQueue × Nat :=
  let q := acc.1
  if (tasksGet q.tasks item.1).isSome then (q, acc.2)
  else
    ({ q with
        tasks := q.tasks ++
          [(item.1,
            { taskKey := item.1, payload := item.2, attempt := 1,
              state := TaskState.pending, lastProxy := none })],
        pendingOrder := q.pendingOrder ++ [item.1] },
      acc.2 + 1)

/-- `put_many` (task_queue.py lines 100-115): insert each pair whose key is
not already known, appending to the pending order; returns the number
actually inserted. -/
def put_many (q : TaskQueue) (items : List (Nat × Nat)) : TaskQueue × Nat :=
  items.foldl putManyStep (q, 0)

/-- The inner `while self._pending_order` loop of `get` (task_queue.py lines
124-133): pop keys from the front, skipping keys whose task is gone or not in
a dispatchable state, until a `PENDING`/`RETURNED` task is found; that task is
marked `IN_PROGRESS` and returned. -/
def getLoop (tasks : List (Nat × ProcessingTask)) :
    List Nat → List Nat × List (Nat × ProcessingTask) × Option ProcessingTask
  | [] => ([], tasks, none)
  | k :: rest =>
    match tasksGet tasks k with
    | none => getLoop tasks rest
    | some t =>
      if t.state = TaskState.pending ∨ t.state = TaskState.returned then
        (rest, tasksSet tasks k { t with state := TaskState.inProgress },
          some { t with state := TaskState.inProgress })
      else getLoop tasks rest

/-- `get` (task_queue.py lines 117-133). A paused queue blocks the caller on
the pause event; that blocked call is modelled as handing out nothing. -/
def getTask (q : TaskQueue) : TaskQueue × Option ProcessingTask :=
  if q.paused then (q, none)
  else
    let r := getLoop q.tasks q.pendingOrder
    ({ q with pendingOrder := r.1, tasks := r.2.1 }, r.2.2)

/-- `mark_done` (task_queue.py lines 135-138). -/
def mark_done (q : TaskQueue) (k : Nat) : TaskQueue :=
  { q with tasks := tasksPop q.tasks k }

/-- `retry` (task_queue.py lines 140-153): remember the proxy, bump the
attempt counter; when it exceeds `max_attempts` the task is dropped and
`false` returned, otherwise it is re-enqueued at the tail as `RETURNED`. -/
def retryTask (q : TaskQueue) (k : Nat) (lastProxy : Option String) :
    TaskQueue × Bool :=
  match tasksGet q.tasks k with
  | none => (q, false)
  | some t =>
    let t := { t with lastProxy := lastProxy, attempt := t.attempt + 1 }
    if q.maxAttempts < t.attempt then
      ({ q with tasks := tasksPop q.tasks k }, false)
    else
      ({ q with
          tasks := tasksSet q.tasks k { t with state := TaskState.returned },
          pendingOrder := q.pendingOrder ++ [k] }, true)

/-- `abandon` (task_queue.py lines 155-158). -/
def abandon (q : TaskQueue) (k : Nat) : TaskQueue :=
  { q with tasks := tasksPop q.tasks k }

/-- The keys counted by `pending_count` (task_queue.py lines 160-167): tasks
in state `PENDING` or `RETURNED`. -/
def pendingKeys (q : TaskQueue) : List Nat :=
  (q.tasks.filter
    (fun kv =>
      kv.2.state == TaskState.pending || kv.2.state == TaskState.returned)).map
    (fun kv => kv.1)

/-- `pending_count` (task_queue.py lines 160-167). -/
def pending_count (q : TaskQueue) : Nat :=
  (pendingKeys q).length

/-- `pause` (task_queue.py lines 169-177). -/
def pauseQueue (q : TaskQueue) : TaskQueue × Bool :=
  if q.paused then (q, false) else ({ q with paused := true }, true)

/-- `resume` (task_queue.py lines 179-187). -/
def resumeQueue (q : TaskQueue) : TaskQueue × Bool :=
  if q.paused then ({ q with paused := false }, true) else (q, false)

/-- One queue operation of the public API. -/
inductive QueueOp
  | putMany (items : List (Nat × Nat))
  | getOp
  | markDone (k : Nat)
  | retryOp (k : Nat) (lastProxy : Option String)
  | abandonOp (k : Nat)
  | pauseOp
  | resumeOp
  deriving Repr, DecidableEq

/-- State transition of one queue operation (return values discarded). -/
def applyQueueOp (q : TaskQueue) : QueueOp → TaskQueue
  | QueueOp.putMany items => (put_many q items).1
  | QueueOp.getOp => (getTask q).1
  | QueueOp.markDone k => mark_done q k
  | QueueOp.retryOp k lp => (retryTask q k lp).1
  | QueueOp.abandonOp k => abandon q k
  | QueueOp.pauseOp => (pauseQueue q).1
  | QueueOp.resumeOp => (resumeQueue q).1

/-- Run a sequence of queue operations. -/
def runQueueOps (q : TaskQueue) (ops : List QueueOp) : TaskQueue :=
  ops.foldl applyQueueOp q

/-- Whether an operation enqueues the key `k` (only `put_many` can). -/
def opPutsKey (k : Nat) : QueueOp → Bool
  | QueueOp.putMany items => items.any (fun kv => kv.1 == k)
  | _ => false

/-! ## Proxy pool (reuse_utils/proxy_pool.py)

Endpoints are identified by their address string; auth, timestamps and the
failure counter are not claim-relevant. `_blocked` and `_in_use` are Python
sets, modelled as duplicate-free lists; the availability event and file I/O
are not modelled. -/

/-- The `ProxyPool` state: `_proxies` (ring order, deduplicated addresses),
`_blocked`, `_in_use`, `_cursor` and `_last_address`. -/
structure ProxyPool where
  proxies : List String
  blocked : List String
  inUse : List String
  cursor : Nat
  lastAddress : Option String
  deriving Repr, DecidableEq

/-- The `for _ in range(total)` scan of `acquire` (proxy_pool.py lines
107-120): probe the endpoint under the cursor, advance the cursor modulo the
ring size, skip blocked and in-use addresses; the first free address is
marked in-use and returned. -/
def acquireLoop (p : ProxyPool) : Nat → ProxyPool × Option String
  | 0 => (p, none)
  | n + 1 =>
    let total := p.proxies.length
    let addr := p.proxies.getD p.cursor ""
    let p2 := { p with cursor := (p.cursor + 1) % total }
    if addr ∈ p2.blocked then acquireLoop p2 n
    else if addr ∈ p2.inUse then acquireLoop p2 n
    else
      ({ p2 with inUse := addr :: p2.inUse, lastAddress := some addr },
        some addr)

/-- `acquire` (proxy_pool.py lines 99-124): empty pool returns `none`,
otherwise at most one full revolution of the ring is scanned. -/
def acquire (p : ProxyPool) : ProxyPool × Option String :=
  if p.proxies.length = 0 then (p, none)
  else acquireLoop p p.proxies.length

/-- `release` (proxy_pool.py lines 126-131): `self._in_use.discard(address)`. -/
def releaseProxy (p : ProxyPool) (address : String) : ProxyPool :=
  { p with inUse := p.inUse.filter (fun a => a != address) }

/-- `mark_blocked` (proxy_pool.py lines 133-153): add the address to the
blocked set and discard it from the in-use set; the blacklist file append is
I/O and not modelled. -/
def mark_blocked (p : ProxyPool) (address : String) : ProxyPool :=
  { p with
      blocked := if address ∈ p.blocked then p.blocked else address :: p.blocked,
      inUse := p.inUse.filter (fun a => a != address) }

/-- Deduplication of the proxies file lines by address, keeping the first
occurrence (`_read_proxies`, proxy_pool.py lines 178-190). -/
def dedupAddresses (l : List String) : List String :=
  l.foldl (fun acc a => if a ∈ acc then acc else acc ++ [a]) []

/-- `reload` (proxy_pool.py lines 72-97): replace the proxy list and the
blocked set with the file contents, keep only in-use addresses that still
exist in the new list, and re-seat the cursor after `_last_address`. Note the
in-use set is filtered against the new proxy list only, not against the new
blocked set. -/
def reloadPool (p : ProxyPool) (fileProxies fileBlocked : List String) :
    ProxyPool :=
  let proxies := dedupAddresses fileProxies
  let inUse := p.inUse.filter (fun a => proxies.contains a)
  let total := proxies.length
  let cursor :=
    match p.lastAddress with
    | some last =>
      if total = 0 then 0
      else
        match proxies.findIdx? (fun a => a == last) with
        | some i => (i + 1) % total
        | none => 0
    | none => 0
  { proxies := proxies, blocked := fileBlocked, inUse := inUse,
    cursor := cursor, lastAddress := p.lastAddress }

/-- One pool operation among those that do not re-read the files. -/
inductive PoolOp
  | acquireOp
  | releaseOp (address : String)
  | markBlockedOp (address : String)
  deriving Repr, DecidableEq

/-- State transition of one pool operation. -/
def applyPoolOp (p : ProxyPool) : PoolOp → ProxyPool
  | PoolOp.acquireOp => (acquire p).1
  | PoolOp.releaseOp a => releaseProxy p a
  | PoolOp.markBlockedOp a => mark_blocked p a

/-- Run a sequence of pool operations. -/
def runPoolOps (p : ProxyPool) (ops : List PoolOp) : ProxyPool :=
  ops.foldl applyPoolOp p

/-- The in-use/blocked disjointness property. -/
abbrev PoolDisjoint (p : ProxyPool) : Prop :=
  ∀ a ∈ p.inUse, a ∉ p.blocked

/-- Cursor well-formedness: the cursor indexes into the ring whenever the
ring is non-empty (maintained by `__init__`, `reload` and `acquire`). -/
abbrev PoolWF (p : ProxyPool) : Prop :=
  p.proxies = [] ∨ p.cursor < p.proxies.length

/-! ## Page-state detection (detectors/detect_page_state.py)

A probe either does not match, matches returning `True` (the router reports
the probe's id), or matches returning a state string (the router reports that
string). The page may change between sweep attempts, so the probe outcomes of
a sweep are indexed by the attempt number. -/

/-- The truthiness cases of one detector's return value (`DetectorResult =
str | bool`, with falsy results meaning no match). -/
inductive ProbeOutcome
  | noMatch
  | matched
  | matchedState (s : String)
  deriving Repr, DecidableEq

/-- `NOT_DETECTED_STATE_ID` (detect_page_state.py line 30). -/
def NOT_DETECTED_STATE_ID : String := "not_detected"

/-- `max_retries` (detect_page_state.py line 145). -/
def DETECT_MAX_RETRIES : Nat := 3

/-- `retry_delay` in seconds (detect_page_state.py line 146). -/
def DETECT_RETRY_DELAY : Nat := 20

/-- `_detect_once` (detect_page_state.py lines 33-130): run the ordered
probes and return the first truthy result — the probe's id when it returned
`True`, the returned string otherwise; the sentinel when nothing matched.
Order construction (priority, skip, unknown-id validation) is upstream of the
sweep itself; `probes` is the already-ordered list. -/
def detectOnce (probes : List (String × ProbeOutcome)) : String :=
  match probes with
  | [] => NOT_DETECTED_STATE_ID
  | (pid, r) :: rest =>
    match r with
    | ProbeOutcome.noMatch => detectOnce rest
    | ProbeOutcome.matched => pid
    | ProbeOutcome.matchedState s => s

/-- The `for attempt in range(max_retries + 1)` loop of `detect_page_state`
(lines 148-164), with `attemptsLeft` the number of iterations remaining.
Returns the result, the total number of sweeps performed, and the total
seconds slept between attempts. -/
def detectAttempts (sweeps : Nat → List (String × ProbeOutcome))
    (attempt : Nat) : Nat → String × Nat × Nat
  | 0 => (NOT_DETECTED_STATE_ID, attempt, 0)
  | n + 1 =>
    let r := detectOnce (sweeps attempt)
    if r ≠ NOT_DETECTED_STATE_ID then (r, attempt + 1, 0)
    else if n = 0 then (NOT_DETECTED_STATE_ID, attempt + 1, 0)
    else
      let rec2 := detectAttempts sweeps (attempt + 1) n
      (rec2.1, rec2.2.1, rec2.2.2 + DETECT_RETRY_DELAY)

/-- `detect_page_state` (detect_page_state.py lines 133-164): 1 initial sweep
plus up to `max_retries` retries with a fixed delay between attempts. -/
def detect_page_state (sweeps : Nat → List (String × ProbeOutcome)) :
    String × Nat × Nat :=
  detectAttempts sweeps 0 (DETECT_MAX_RETRIES + 1)

/-! ## Catalog pagination engine (parsers/catalog_parser/catalog_parser_v2.py)

URLs are abstracted to naturals addressing a deterministic page source; the
next-page link of page `u` is `u + 1`. Listings are abstracted to natural
item ids. The navigation/detection/captcha preamble of `parse_catalog`
(lines 359-561) and the per-transition retry/backoff block (lines 617-690)
are network interactions; each is embedded by its outcome, while every
`_build_result` call site and the whole per-page loop are embedded
faithfully. -/

/-- `CatalogParseStatus` (models.py lines 14-26), v2 statuses. -/
inductive CatalogParseStatus
  | success
  | empty
  | proxyBlocked
  | proxyAuthRequired
  | pageNotDetected
  | loadTimeout
  | captchaFailed
  | wrongPage
  | serverUnavailable
  deriving Repr, DecidableEq, Inhabited

/-- `CatalogParseMeta` (models.py lines 61-70); `details` is never set by
`_build_result` and is omitted. -/
structure CatalogParseMeta where
  status : CatalogParseStatus
  processedPages : Nat
  processedCards : Nat
  lastState : Option String
  lastUrl : Option Nat
  deriving Repr, DecidableEq, Inhabited

/-- `CatalogParseResult` (models.py lines 85-113): public result fields plus
the private resume parameters used by `continue_from`. -/
structure CatalogParseResult where
  status : CatalogParseStatus
  listings : List Nat
  meta : CatalogParseMeta
  errorState : Option String
  errorUrl : Option Nat
  resumeUrl : Option Nat
  resumePageNumber : Option Nat
  catalogUrlPriv : Nat
  fieldsPriv : List String
  maxPagesPriv : Option Nat
  sortPriv : Option String
  startPagePriv : Nat
  includeHtmlPriv : Bool
  maxCaptchaAttemptsPriv : Nat
  loadTimeoutPriv : Nat
  loadRetriesPriv : Nat
  processedPagesPriv : Nat
  singlePagePriv : Bool
  deriving Repr, DecidableEq, Inhabited

/-- What one catalog page yields to `parse_single_page` once its state is
settled: the classification outcome, the listing stubs whose `item_id` is
non-empty, and whether a next-page link exists. -/
structure SpecPage where
  status : CatalogParseStatus
  cards : List Nat
  hasNext : Bool
  errorState : Option String
  deriving Repr, DecidableEq, Inhabited

/-- Outcome of the retry-wrapped navigation to a next page (lines 617-690):
success, all `load_retries` attempts timed out, or a 5xx persisted through
the backoff reload sequence. -/
inductive NavOutcome
  | ok
  | timeoutExhausted
  | serverExhausted
  deriving Repr, DecidableEq

/-- A deterministic page world: the page each URL shows and the outcome of
navigating to each URL. -/
structure PageWorld where
  src : Nat → SpecPage
  nav : Nat → NavOutcome

/-- `SinglePageResult` (models.py lines 73-82). -/
structure SinglePageResult where
  status : CatalogParseStatus
  cards : List Nat
  hasNext : Bool
  nextUrl : Option Nat
  errorState : Option String
  errorUrl : Option Nat
  deriving Repr, DecidableEq

/-- `parse_single_page` (catalog_parser_v2.py lines 86-225) on an already
settled page: a catalog page yields its cards and next link (`EMPTY` when no
card locators were found, hence no cards); every other outcome yields the
corresponding error result with the current URL. -/
def parse_single_page (src : Nat → SpecPage) (pos : Nat) : SinglePageResult :=
  let p := src pos
  if p.status = CatalogParseStatus.success then
    { status := CatalogParseStatus.success, cards := p.cards,
      hasNext := p.hasNext, nextUrl := some (pos + 1),
      errorState := none, errorUrl := none }
  else if p.status = CatalogParseStatus.empty then
    { status := CatalogParseStatus.empty, cards := [],
      hasNext := p.hasNext, nextUrl := some (pos + 1),
      errorState := none, errorUrl := none }
  else
    { status := p.status, cards := [], hasNext := false, nextUrl := none,
      errorState := p.errorState, errorUrl := some pos }

/-- The parameters `parse_catalog` threads into `_build_result` for
`continue_from`. -/
structure CrawlCfg where
  fields : List String
  maxPages : Option Nat
  sort : Option String
  startPage : Nat
  includeHtml : Bool
  maxCaptchaAttempts : Nat
  loadTimeout : Nat
  loadRetries : Nat
  singlePage : Bool
  deriving Repr, DecidableEq

/-- `_build_result` (catalog_parser_v2.py lines 719-790): assemble the result
and meta; in `single_page` mode the private resume fields stay at their
defaults and the resume fields are cleared. -/
def build_result (status : CatalogParseStatus) (listings : List Nat)
    (processedPages : Nat) (errorState : Option String) (errorUrl : Option Nat)
    (resumeUrl : Option Nat) (resumePageNumber : Option Nat)
    (catalogUrl : Nat) (cfg : CrawlCfg) : CatalogParseResult :=
  let meta : CatalogParseMeta :=
    { status := status, processedPages := processedPages,
      processedCards := listings.length, lastState := errorState,
      lastUrl := errorUrl.orElse (fun _ => resumeUrl) }
  if cfg.singlePage then
    { status := status, listings := listings, meta := meta,
      errorState := errorState, errorUrl := errorUrl,
      resumeUrl := none, resumePageNumber := none,
      catalogUrlPriv := 0, fieldsPriv := [], maxPagesPriv := none,
      sortPriv := none, startPagePriv := 1, includeHtmlPriv := false,
      maxCaptchaAttemptsPriv := 30, loadTimeoutPriv := 180000,
      loadRetriesPriv := 5, processedPagesPriv := 0, singlePagePriv := true }
  else
    { status := status, listings := listings, meta := meta,
      errorState := errorState, errorUrl := errorUrl,
      resumeUrl := resumeUrl, resumePageNumber := resumePageNumber,
      catalogUrlPriv := catalogUrl, fieldsPriv := cfg.fields,
      maxPagesPriv := cfg.maxPages, sortPriv := cfg.sort,
      startPagePriv := cfg.startPage, includeHtmlPriv := cfg.includeHtml,
      maxCaptchaAttemptsPriv := cfg.maxCaptchaAttempts,
      loadTimeoutPriv := cfg.loadTimeout, loadRetriesPriv := cfg.loadRetries,
      processedPagesPriv := processedPages, singlePagePriv := false }

/-- The `processed_pages >= max_pages` page-bound check (lines 565 and 614);
no bound when `max_pages` is `None`. -/
def budgetReached (maxPages : Option Nat) (processed : Nat) : Bool :=
  match maxPages with
  | some m => m ≤ processed
  | none => false

/-- The successful-completion result (lines 692-713): `EMPTY` when pages were
processed but no listing was collected, `SUCCESS` otherwise; no resume
cursor. -/
def finalResult (cfg : CrawlCfg) (catalogUrl : Nat) (listings : List Nat)
    (processed : Nat) : CatalogParseResult :=
  let st :=
    if 0 < processed ∧ listings = [] then CatalogParseStatus.empty
    else CatalogParseStatus.success
  build_result st listings processed none none none none catalogUrl cfg

/-- The `while True` per-page loop of `parse_catalog` (lines 563-713). Each
iteration: check the page bound, parse the current page, return an abort
result carrying the accumulated listings and a cursor on a non-success
status, otherwise accumulate and either finish (empty page, no next link,
bound reached) or navigate to the next page; a failed navigation returns the
corresponding abort result. `fuel` bounds the loop for the embedding; every
run with `max_pages = some m` needs at most `m + 1` fuel, and fuel exhaustion
exits like the defensive `if not load_success: break`. -/
def parseLoop (w : PageWorld) (cfg : CrawlCfg) (catalogUrl : Nat) :
    Nat → Nat → List Nat → Nat → CatalogParseResult
  | 0, _, listings, processed => finalResult cfg catalogUrl listings processed
  | fuel + 1, pos, listings, processed =>
    if budgetReached cfg.maxPages processed then
      finalResult cfg catalogUrl listings processed
    else
      if (parse_single_page w.src pos).status = CatalogParseStatus.success ∨
          (parse_single_page w.src pos).status = CatalogParseStatus.empty then
        if (parse_single_page w.src pos).status = CatalogParseStatus.empty then
          finalResult cfg catalogUrl
            (listings ++ (parse_single_page w.src pos).cards) (processed + 1)
        else if (parse_single_page w.src pos).hasNext = false then
          finalResult cfg catalogUrl
            (listings ++ (parse_single_page w.src pos).cards) (processed + 1)
        else if budgetReached cfg.maxPages (processed + 1) then
          finalResult cfg catalogUrl
            (listings ++ (parse_single_page w.src pos).cards) (processed + 1)
        else
          match w.nav (pos + 1) with
          | NavOutcome.ok =>
            parseLoop w cfg catalogUrl fuel (pos + 1)
              (listings ++ (parse_single_page w.src pos).cards) (processed + 1)
          | NavOutcome.timeoutExhausted =>
            build_result CatalogParseStatus.loadTimeout
              (listings ++ (parse_single_page w.src pos).cards) (processed + 1)
              (some "timeout") (some (pos + 1)) (some (pos + 1))
              (some (cfg.startPage + (processed + 1))) catalogUrl cfg
          | NavOutcome.serverExhausted =>
            build_result CatalogParseStatus.serverUnavailable
              (listings ++ (parse_single_page w.src pos).cards) (processed + 1)
              (some "server_error_5xx_detector") (some (pos + 1)) (some (pos + 1))
              (some (cfg.startPage + (processed + 1))) catalogUrl cfg
      else
        build_result (parse_single_page w.src pos).status listings processed
          (parse_single_page w.src pos).errorState
          (parse_single_page w.src pos).errorUrl
          (some pos) (some (cfg.startPage + processed)) catalogUrl cfg

/-- Outcome of the pre-loop navigation/detection/captcha preamble of
`parse_catalog` (lines 434-561): either the loop is reached on a confirmed
catalog page, or the run aborts before the loop with a status (5xx retries
exhausted, captcha exhausted, or a critical state) — every such abort calls
`_build_result` with no listings, zero pages, `resume_url = page.url` and no
resume page number. -/
inductive EntryOutcome
  | proceed
  | blockedPre (status : CatalogParseStatus) (errState : String)
  deriving Repr, DecidableEq

/-- `parse_catalog` (catalog_parser_v2.py lines 228-713): `single_page`
validation and coercion of `max_pages` (lines 351-357), the preamble by its
outcome, then the per-page loop from the start URL. URL construction and
mechanical filters are outside this embedding; `catalogUrl` is the built
catalog URL (or the current URL when navigation is skipped). -/
def parse_catalog (w : PageWorld) (entry : EntryOutcome)
    (catalogUrl startUrl : Nat) (cfg : CrawlCfg) (fuel : Nat) :
    Except String CatalogParseResult :=
  if cfg.singlePage ∧ cfg.maxPages ≠ none then
    Except.error "max_pages cannot be combined with single_page"
  else if cfg.singlePage ∧ 1 < cfg.startPage then
    Except.error "start_page cannot be combined with single_page"
  else
    match entry with
    | EntryOutcome.blockedPre st es =>
      Except.ok (build_result st [] 0 (some es) (some startUrl) (some startUrl)
        none catalogUrl
        (if cfg.singlePage then { cfg with maxPages := some 1 } else cfg))
    | EntryOutcome.proceed =>
      Except.ok (parseLoop w
        (if cfg.singlePage then { cfg with maxPages := some 1 } else cfg)
        catalogUrl fuel startUrl [] 0)

/-- `continue_from`/`_continue_parsing` (models.py lines 115-147 and
catalog_parser_v2.py lines 793-883): refuse `single_page` results, decide
whether to navigate (explicit flag or detection of the new page), compute the
remaining page budget (returning the previous result unchanged when none is
left), rerun `parse_catalog` with navigation skipped from the resume point,
and merge the listings and page counts. `newPagePos` is where the caller's
fresh page stands, `newPageIsCatalog` the autodetect outcome, `contEntry` the
preamble outcome of the continuation run. -/
def continue_from (w : PageWorld) (prev : CatalogParseResult)
    (skipNavigation : Option Bool) (newPagePos : Nat) (newPageIsCatalog : Bool)
    (contEntry : EntryOutcome) (fuel : Nat) : Except String CatalogParseResult :=
  if prev.singlePagePriv then
    Except.error "cannot continue a single_page result"
  else
    let needGoto :=
      match skipNavigation with
      | some true => false
      | some false => true
      | none => !newPageIsCatalog
    let pos :=
      match prev.resumeUrl with
      | some u => if needGoto then u else newPagePos
      | none => newPagePos
    let remainingCheck : Option (Option Nat) :=
      match prev.maxPagesPriv with
      | some m =>
        if m - prev.processedPagesPriv = 0 then none
        else some (some (m - prev.processedPagesPriv))
      | none => some none
    match remainingCheck with
    | none => Except.ok prev
    | some remaining =>
      let contStart :=
        match prev.resumePageNumber with
        | some n => if n = 0 then 1 else n
        | none => 1
      let contCfg : CrawlCfg :=
        { fields := prev.fieldsPriv, maxPages := remaining,
          sort := prev.sortPriv, startPage := contStart,
          includeHtml := prev.includeHtmlPriv,
          maxCaptchaAttempts := prev.maxCaptchaAttemptsPriv,
          loadTimeout := prev.loadTimeoutPriv,
          loadRetries := prev.loadRetriesPriv, singlePage := false }
      match parse_catalog w contEntry pos pos contCfg fuel with
      | Except.error e => Except.error e
      | Except.ok cont =>
        let mergedListings := prev.listings ++ cont.listings
        let mergedPages := prev.processedPagesPriv + cont.processedPagesPriv
        Except.ok
          { status := cont.status, listings := mergedListings,
            meta :=
              { status := cont.status, processedPages := mergedPages,
                processedCards := mergedListings.length,
                lastState := cont.errorState,
                lastUrl := cont.errorUrl.orElse (fun _ => cont.resumeUrl) },
            errorState := cont.errorState, errorUrl := cont.errorUrl,
            resumeUrl := cont.resumeUrl,
            resumePageNumber := cont.resumePageNumber,
            catalogUrlPriv := prev.catalogUrlPriv,
            fieldsPriv := prev.fieldsPriv, maxPagesPriv := prev.maxPagesPriv,
            sortPriv := prev.sortPriv, startPagePriv := prev.startPagePriv,
            includeHtmlPriv := prev.includeHtmlPriv,
            maxCaptchaAttemptsPriv := prev.maxCaptchaAttemptsPriv,
            loadTimeoutPriv := prev.loadTimeoutPriv,
            loadRetriesPriv := prev.loadRetriesPriv,
            processedPagesPriv := mergedPages, singlePagePriv := false }

/-- The cards of `count` consecutive pages starting at `pos`, in crawl
order. -/
def cardsSeq (src : Nat → SpecPage) (pos count : Nat) : List Nat :=
  (List.range count).flatMap (fun i => (src (pos + i)).cards)

/-! ## Concrete instances used to evaluate the theorems -/

/-- Strict row-major order on matrix positions: earlier row, or same row and
earlier column. -/
def RowMajorLt (p q : Nat × Nat) : Prop :=
  p.1 < q.1 ∨ (p.1 = q.1 ∧ p.2 < q.2)

/-- A correlation surface with two rows: the global right-most match sits in
the first row, the row-major-last match in the second. -/
def corrTwoRows : List (List ℚ) :=
  [[0, 0, mkRat 6 10], [mkRat 6 10, 0, 0]]

/-- A concrete cache holding one definite entry under key "k". -/
def cacheWitness : Cache :=
  cacheSet (fun _ => none) "k" { offset := 10, definitely := true, failCount := 0 }

/-- The always-empty cache. -/
def emptyCache : Cache := fun _ => none

/-- Probe sweeps on a page no probe ever matches. -/
def sweepsNoMatch : Nat → List (String × ProbeOutcome) :=
  fun _ => [("proxy_block_403_detector", ProbeOutcome.noMatch),
            ("catalog_page_detector", ProbeOutcome.noMatch)]

/-- A deterministic catalog of exactly 3 pages holding 20 items each; pages 1
and 2 link to their successor, page 3 is the last. -/
def srcThreePages : Nat → SpecPage := fun p =>
  if p = 1 then
    { status := CatalogParseStatus.success,
      cards := (List.range 20).map (fun i => 100 + i), hasNext := true,
      errorState := none }
  else if p = 2 then
    { status := CatalogParseStatus.success,
      cards := (List.range 20).map (fun i => 200 + i), hasNext := true,
      errorState := none }
  else if p = 3 then
    { status := CatalogParseStatus.success,
      cards := (List.range 20).map (fun i => 300 + i), hasNext := false,
      errorState := none }
  else
    { status := CatalogParseStatus.pageNotDetected, cards := [],
      hasNext := false, errorState := some "not_detected" }

/-- The three-page world with every navigation succeeding. -/
def worldOkThree : PageWorld :=
  { src := srcThreePages, nav := fun _ => NavOutcome.ok }

/-- The three-page world where the navigation to page 2 exhausts its load
retries, aborting the run after page 1. -/
def worldAbortAfterOne : PageWorld :=
  { src := srcThreePages,
    nav := fun u => if u = 2 then NavOutcome.timeoutExhausted else NavOutcome.ok }

/-- A world whose every page is classified as a 403 proxy block. -/
def worldBlockedPage : PageWorld :=
  { src := fun _ =>
      { status := CatalogParseStatus.proxyBlocked, cards := [],
        hasNext := false, errorState := some "proxy_block_403_detector" },
    nav := fun _ => NavOutcome.ok }

/-- The crawl parameters of the concrete scenarios: one URL field set, a
2-page bound, defaults elsewhere. -/
def cfgTwoPages : CrawlCfg :=
  { fields := ["item_id"], maxPages := some 2, sort := none, startPage := 1,
    includeHtml := false, maxCaptchaAttempts := 30, loadTimeout := 180000,
    loadRetries := 5, singlePage := false }

/-- The run over `worldAbortAfterOne` that stops after page 1 with a load
timeout. -/
def resAborted : CatalogParseResult :=
  ((parse_catalog worldAbortAfterOne EntryOutcome.proceed 1 1 cfgTwoPages
      2).toOption).getD default

/-- The uninterrupted run over `worldOkThree` bounded to 2 pages. -/
def resFull : CatalogParseResult :=
  ((parse_catalog worldOkThree EntryOutcome.proceed 1 1 cfgTwoPages
      3).toOption).getD default

/-- The resumption of `resAborted` on a fresh page. -/
def resMerged : CatalogParseResult :=
  ((continue_from worldOkThree resAborted (some false) 0 false
      EntryOutcome.proceed 2).toOption).getD default

/-- Key consistency of the tasks dict: every stored task carries the key it
is stored under (`put_many` creates tasks this way and no operation changes a
task's key). -/
abbrev QueueWF (q : TaskQueue) : Prop :=
  ∀ kv ∈ q.tasks, kv.2.taskKey = kv.1

/-- A queue with `max_attempts = 1` and one enqueued task under key 0. -/
def queueStart : TaskQueue := (put_many (initQueue 1) [(0, 10)]).1

/-- `queueStart` after key 0 has been dispatched. -/
def queueAfterGet : TaskQueue := (getTask queueStart).1

/-- `queueAfterGet` after the retry of key 0 exhausted the attempt budget. -/
def queueDropped : TaskQueue := (retryTask queueAfterGet 0 none).1

/-- `queueDropped` after key 0 has been enqueued again. -/
def queueReput : TaskQueue := (put_many queueDropped [(0, 10)]).1

/-- A pool holding the single proxy address "a". -/
def poolStart : ProxyPool :=
  { proxies := ["a"], blocked := [], inUse := [], cursor := 0,
    lastAddress := none }

/-- `poolStart` after its proxy has been acquired. -/
def poolAcquired : ProxyPool := (acquire poolStart).1

/-- `poolAcquired` after a reload whose blocked file lists the in-use
address "a". -/
def poolReloaded : ProxyPool := reloadPool poolAcquired ["a"] ["a"]

/-! ## Theorems -/

theorem cacheSet_self (c : Cache) (k : String) (e : CacheEntry) :
    cacheSet c k e k = some e := by
  simp [cacheSet]

theorem cachePop_self (c : Cache) (k : String) : cachePop c k k = none := by
  simp [cachePop]

theorem recordFailureIter_step (c : Cache) (k : String) (e : CacheEntry)
    (j : Nat) (hj : recordFailureIter c k j k = some e)
    (hlt : e.failCount + 1 < FAILURE_THRESHOLD) :
    recordFailureIter c k (j + 1) k = some { e with failCount := e.failCount + 1 } := by
  show (record_failure (recordFailureIter c k j) k).1 k = _
  rw [record_failure, hj]
  simp only [not_le.mpr hlt, if_neg (not_le.mpr hlt)]
  exact cacheSet_self _ _ _

/-- C3: one `record_failure` call on an entry with counter `f` leaves the
entry with counter exactly `f + 1` when that stays below the threshold 5, and
removes the entry exactly when the incremented counter reaches the threshold;
iterating from a fresh entry, the entry is present with counter `j` after
`j < 5` failures and gone after the 5th. -/
theorem record_failure_increments_and_evicts (cache : Cache) (hashKey : String)
    (e : CacheEntry) (hmem : cache hashKey = some e) :
    ((e.failCount + 1 < FAILURE_THRESHOLD →
        (record_failure cache hashKey).2 = false ∧
        (record_failure cache hashKey).1 hashKey =
          some { e with failCount := e.failCount + 1 }) ∧
      (FAILURE_THRESHOLD ≤ e.failCount + 1 →
        (record_failure cache hashKey).2 = true ∧
        (record_failure cache hashKey).1 hashKey = none)) ∧
    (e.failCount = 0 →
      (∀ j : Nat, j < 5 →
        recordFailureIter cache hashKey j hashKey =
          some { e with failCount := (j : Int) }) ∧
      recordFailureIter cache hashKey 5 hashKey = none) := by
  constructor
  · constructor
    · intro hlt
      simp [record_failure, hmem, not_le.mpr hlt, cacheSet]
    · intro hge
      simp [record_failure, hmem, hge, cachePop]
  · intro h0
    have key : ∀ j : Nat, j ≤ 4 →
        recordFailureIter cache hashKey j hashKey =
          some { e with failCount := (j : Int) } := by
      intro j
      induction j with
      | zero =>
        intro _
        show cache hashKey = _
        rw [hmem]
        cases e with
        | mk o d f => simp_all
      | succ n ih =>
        intro hn
        have hrec := ih (by omega)
        have hlt : ({ e with failCount := (n : Int) } : CacheEntry).failCount + 1 <
            FAILURE_THRESHOLD := by
          simp only [FAILURE_THRESHOLD]
          omega
        have := recordFailureIter_step cache hashKey _ n hrec hlt
        rw [this]
        simp
    constructor
    · intro j hj
      exact key j (by omega)
    · have h4 := key 4 (by omega)
      show (record_failure (recordFailureIter cache hashKey 4) hashKey).1 hashKey = none
      rw [record_failure, h4]
      norm_num [FAILURE_THRESHOLD, cachePop]

/-- Witness: a fresh definite entry under key "k" sees its counter move from
0 to 1 on one failure and is gone after 5 consecutive failures. -/
theorem record_failure_increments_and_evicts_witness :
    (record_failure cacheWitness "k").2 = false ∧
    (record_failure cacheWitness "k").1 "k" =
      some { offset := 10, definitely := true, failCount := 1 } ∧
    recordFailureIter cacheWitness "k" 5 "k" = none := by
  have h := record_failure_increments_and_evicts cacheWitness "k"
    { offset := 10, definitely := true, failCount := 0 } (by rfl)
  have h1 := h.1.1 (by norm_num [FAILURE_THRESHOLD])
  exact ⟨h1.1, by simpa using h1.2, (h.2 rfl).2⟩

/-- C9 counterexample: a cache-miss solve attempt whose drag fails
verification leaves the cache with NO entry for the puzzle-pair hash —
`record_failure` only runs when the offset came from the cache, and it never
creates entries — contradicting the claim that an entry with `fail_count = 1`
is present afterwards. -/
theorem solve_miss_failure_counterexample :
    (solveSliderCacheStep emptyCache "h" 5 false).cache "h" = none := rfl

/-- C9 amended: on a cache miss the offset is the correlation offset, and a
failed verification leaves the cache completely unchanged (in particular no
entry for the hash is created and no failure is recorded). -/
theorem solve_miss_failure_records_nothing (cache : Cache) (hContent : String)
    (correlationOffset : Int) (hmiss : get_offset cache hContent = none) :
    (solveSliderCacheStep cache hContent correlationOffset false).cache = cache ∧
    (solveSliderCacheStep cache hContent correlationOffset false).moveOffset =
      correlationOffset + 37 ∧
    (solveSliderCacheStep cache hContent correlationOffset false).solved = false := by
  refine ⟨?_, ?_, ?_⟩ <;> simp [solveSliderCacheStep, hmiss]

/-- Witness for the amended C9 statement on the empty cache. -/
theorem solve_miss_failure_records_nothing_witness :
    get_offset emptyCache "h" = none ∧
    (solveSliderCacheStep emptyCache "h" 5 false).cache = emptyCache ∧
    (solveSliderCacheStep emptyCache "h" 5 false).moveOffset = 42 := by
  have h := solve_miss_failure_records_nothing emptyCache "h" 5 rfl
  refine ⟨rfl, h.1, ?_⟩
  rw [h.2.1]
  norm_num

/-- C10: when no position of the correlation surface meets the threshold,
`calculate_offset` returns 0 — not an error — and the subsequent drag in
`solve_slider_once` moves the handle by exactly the fixed 37-pixel bias. -/
theorem no_match_offset_zero (M : List (List ℚ)) (t : ℚ)
    (hnone : ∀ r, r < M.length → ∀ c, c < (M.getD r []).length →
      (M.getD r []).getD c 0 < t)
    (cache : Cache) (hContent : String)
    (hmiss : get_offset cache hContent = none) (solvedPoll : Bool) :
    calculate_offset M t = 0 ∧
    (solveSliderCacheStep cache hContent (calculate_offset M t)
      solvedPoll).moveOffset = 37 := by
  have hrow : ∀ r, r < M.length → rowMatches (M.getD r []) t = [] := by
    intro r hr
    rw [rowMatches, List.filter_eq_nil_iff]
    intro c hc
    rw [List.mem_range] at hc
    simpa using not_le.mpr (hnone r hr c hc)
  have hmp : matchPositions M t = [] := by
    rw [matchPositions, List.flatMap_eq_nil_iff]
    intro r hr
    rw [List.mem_range] at hr
    rw [hrow r hr]
    rfl
  have hz : calculate_offset M t = 0 := by
    rw [calculate_offset, hmp]
    rfl
  refine ⟨hz, ?_⟩
  rw [hz]
  cases solvedPoll <;> simp [solveSliderCacheStep, hmiss]

/-- Witness: a 1x1 correlation surface below the 0.5 threshold yields offset
0 and a 37-pixel drag. -/
theorem no_match_offset_zero_witness :
    calculate_offset [[(0 : ℚ)]] (mkRat 1 2) = 0 ∧
    (solveSliderCacheStep emptyCache "h"
      (calculate_offset [[(0 : ℚ)]] (mkRat 1 2)) false).moveOffset = 37 := by
  exact no_match_offset_zero [[(0 : ℚ)]] (mkRat 1 2) (by decide)
    emptyCache "h" rfl false

theorem detectAttempts_count_le (sweeps : Nat → List (String × ProbeOutcome)) :
    ∀ fuel attempt, (detectAttempts sweeps attempt fuel).2.1 ≤ attempt + fuel := by
  intro fuel
  induction fuel with
  | zero => intro attempt; simp [detectAttempts]
  | succ n ih =>
    intro attempt
    rw [detectAttempts]
    have hstep := ih (attempt + 1)
    split
    · simp only []
      omega
    · split
      · simp only []
        omega
      · simp only []
        omega

/-- C7: on a page no probe ever matches, `detect_page_state` performs exactly
4 sweep attempts (1 initial plus 3 retries) with 20 seconds slept between
consecutive attempts (60 seconds total) and returns the `not_detected`
sentinel as an ordinary value; it never performs more than 4 sweeps, and as
soon as the first matching sweep occurs the matched result is returned with
no further attempts; within a sweep the first matching probe wins and its id
is reported when it returned `True`. -/
theorem detect_page_state_bounded (sweeps : Nat → List (String × ProbeOutcome)) :
    ((∀ a, a < 4 → detectOnce (sweeps a) = NOT_DETECTED_STATE_ID) →
      detect_page_state sweeps = (NOT_DETECTED_STATE_ID, 4, 60)) ∧
    (∀ a, a < 4 → (∀ b, b < a → detectOnce (sweeps b) = NOT_DETECTED_STATE_ID) →
      detectOnce (sweeps a) ≠ NOT_DETECTED_STATE_ID →
      (detect_page_state sweeps).1 = detectOnce (sweeps a) ∧
      (detect_page_state sweeps).2.1 = a + 1) ∧
    (detect_page_state sweeps).2.1 ≤ 4 ∧
    (∀ pre pid rest, (∀ q ∈ pre, q.2 = ProbeOutcome.noMatch) →
      detectOnce (pre ++ (pid, ProbeOutcome.matched) :: rest) = pid) := by
  refine ⟨?_, ?_, ?_, ?_⟩
  · intro h
    show detectAttempts sweeps 0 4 = _
    rw [detectAttempts, detectAttempts, detectAttempts, detectAttempts]
    simp [h 0 (by omega), h 1 (by omega), h 2 (by omega), h 3 (by omega),
      DETECT_RETRY_DELAY]
  · intro a ha hpre hmatch
    match a, ha with
    | 0, _ =>
      show (detectAttempts sweeps 0 4).1 = _ ∧ (detectAttempts sweeps 0 4).2.1 = _
      rw [detectAttempts]
      simp [hmatch]
    | 1, _ =>
      show (detectAttempts sweeps 0 4).1 = _ ∧ (detectAttempts sweeps 0 4).2.1 = _
      rw [detectAttempts, detectAttempts]
      simp [hpre 0 (by omega), hmatch]
    | 2, _ =>
      show (detectAttempts sweeps 0 4).1 = _ ∧ (detectAttempts sweeps 0 4).2.1 = _
      rw [detectAttempts, detectAttempts, detectAttempts]
      simp [hpre 0 (by omega), hpre 1 (by omega), hmatch]
    | 3, _ =>
      show (detectAttempts sweeps 0 4).1 = _ ∧ (detectAttempts sweeps 0 4).2.1 = _
      rw [detectAttempts, detectAttempts, detectAttempts, detectAttempts]
      simp [hpre 0 (by omega), hpre 1 (by omega), hpre 2 (by omega), hmatch]
  · exact detectAttempts_count_le sweeps 4 0
  · intro pre pid rest hpre
    induction pre with
    | nil => rfl
    | cons q pre ih =>
      obtain ⟨qid, qr⟩ := q
      have hq : qr = ProbeOutcome.noMatch := hpre (qid, qr) (by simp)
      subst hq
      show detectOnce (pre ++ (pid, ProbeOutcome.matched) :: rest) = pid
      exact ih (fun x hx => hpre x (List.mem_cons_of_mem _ hx))

/-- Witness: on sweeps where the two configured probes never match,
`detect_page_state` returns the sentinel after exactly 4 sweeps and 60
seconds of inter-attempt delay. -/
theorem detect_page_state_bounded_witness :
    detect_page_state sweepsNoMatch = (NOT_DETECTED_STATE_ID, 4, 60) :=
  (detect_page_state_bounded sweepsNoMatch).1 (by decide)

theorem getLast_some_mem {α : Type} :
    ∀ (l : List α) (x : α), l.getLast? = some x → x ∈ l := by
  intro l
  induction l with
  | nil => intro x h; simp at h
  | cons a l ih =>
    intro x h
    cases l with
    | nil =>
      simp at h
      simp [h]
    | cons b l2 =>
      rw [List.getLast?_cons_cons] at h
      exact List.mem_cons_of_mem _ (ih x h)

theorem pairwise_getLast_max {α : Type} (R : α → α → Prop) :
    ∀ (l : List α) (x : α), l.Pairwise R → l.getLast? = some x →
      ∀ y ∈ l, y = x ∨ R y x := by
  intro l
  induction l with
  | nil => intro x _ h; simp at h
  | cons a l ih =>
    intro x hp hlast y hy
    cases l with
    | nil =>
      simp at hlast hy
      subst hlast
      subst hy
      exact Or.inl rfl
    | cons b l2 =>
      rw [List.getLast?_cons_cons] at hlast
      rcases List.mem_cons.mp hy with hya | hyl
      · subst hya
        exact Or.inr ((List.pairwise_cons.mp hp).1 x (getLast_some_mem _ x hlast))
      · exact ih x (List.pairwise_cons.mp hp).2 hlast y hyl

theorem matchPositions_pairwise (M : List (List ℚ)) (t : ℚ) :
    (matchPositions M t).Pairwise RowMajorLt := by
  rw [matchPositions]
  have hflat : ((List.range M.length).flatMap
      (fun r => (rowMatches (M.getD r []) t).map (fun c => (r, c)))) =
      ((List.range M.length).map
        (fun r => (rowMatches (M.getD r []) t).map (fun c => (r, c)))).flatten := by
    simp [List.flatMap]
  rw [hflat, List.pairwise_flatten]
  constructor
  · intro x hx
    rw [List.mem_map] at hx
    obtain ⟨r, _, rfl⟩ := hx
    refine ((List.pairwise_lt_range _).filter _).map _ ?_
    intro a b hab
    exact Or.inr ⟨rfl, hab⟩
  · refine (List.pairwise_lt_range M.length).map _ ?_
    intro r1 r2 hr x hx y hy
    rw [List.mem_map] at hx hy
    obtain ⟨c1, _, rfl⟩ := hx
    obtain ⟨c2, _, rfl⟩ := hy
    exact Or.inl hr

theorem mem_matchPositions (M : List (List ℚ)) (t : ℚ) (r c : Nat) :
    (r, c) ∈ matchPositions M t ↔
      r < M.length ∧ c < (M.getD r []).length ∧ t ≤ (M.getD r []).getD c 0 := by
  simp only [matchPositions, rowMatches, List.mem_flatMap, List.mem_map,
    List.mem_filter, List.mem_range]
  constructor
  · rintro ⟨a, ha, c2, ⟨hc2, hle⟩, heq⟩
    obtain ⟨rfl, rfl⟩ := Prod.mk.injEq .. ▸ heq
    exact ⟨ha, hc2, of_decide_eq_true hle⟩
  · rintro ⟨hr, hc, hle⟩
    exact ⟨r, hr, c, ⟨hc, decide_eq_true hle⟩, rfl⟩

/-- C8 counterexample: on a two-row correlation surface whose global
right-most above-threshold column (column 2, first row) differs from the
row-major-last match (column 0, second row), `calculate_offset` returns
0 + 37 = 37 while the spec's "right-most x-position over the whole cropped
band plus bias" is 2 + 37 = 39 — the claim is false as stated. -/
theorem calculate_offset_rightmost_counterexample :
    calculate_offset corrTwoRows (mkRat 1 2) = 37 ∧
    specRightmostOffset corrTwoRows = some 39 := by decide

/-- C8 amended: `calculate_offset` crops, binarizes and correlates via the
cv2 pipeline, then returns the column of the LAST above-threshold position in
row-major order — the right-most match within the bottom-most matching row,
not the globally right-most column — plus the fixed 37-pixel bias, with the
threshold comparison being `>= 0.5` rather than strict. -/
theorem calculate_offset_rowmajor_last (M : List (List ℚ)) (t : ℚ) (r c : Nat)
    (hlast : (matchPositions M t).getLast? = some (r, c)) :
    calculate_offset M t = Int.ofNat c + 37 ∧
    t ≤ (M.getD r []).getD c 0 ∧
    ∀ p ∈ matchPositions M t, p.1 < r ∨ (p.1 = r ∧ p.2 ≤ c) := by
  refine ⟨?_, ?_, ?_⟩
  · rw [calculate_offset, hlast]
  · have hmem := getLast_some_mem _ _ hlast
    exact ((mem_matchPositions M t r c).mp hmem).2.2
  · intro p hp
    rcases pairwise_getLast_max RowMajorLt _ _ (matchPositions_pairwise M t)
      hlast p hp with heq | hlt
    · subst heq
      exact Or.inr ⟨rfl, Nat.le_refl _⟩
    · rcases hlt with h1 | ⟨h1, h2⟩
      · exact Or.inl h1
      · exact Or.inr ⟨h1, Nat.le_of_lt h2⟩

/-- Witness: on the two-row surface the row-major-last match is (1, 0); the
returned offset is 0 + 37 and every match lies at row below 1 or at column at
most 0 within row 1. -/
theorem calculate_offset_rowmajor_last_witness :
    (matchPositions corrTwoRows (mkRat 1 2)).getLast? = some (1, 0) ∧
    calculate_offset corrTwoRows (mkRat 1 2) = 37 ∧
    (∀ p ∈ matchPositions corrTwoRows (mkRat 1 2),
      p.1 < 1 ∨ (p.1 = 1 ∧ p.2 ≤ 0)) := by
  have h := calculate_offset_rowmajor_last corrTwoRows (mkRat 1 2) 1 0 (by decide)
  exact ⟨by decide, by simpa using h.1, h.2.2⟩

theorem tasksGet_cons (kv : Nat × ProcessingTask)
    (ts : List (Nat × ProcessingTask)) (k : Nat) :
    tasksGet (kv :: ts) k = if kv.1 = k then some kv.2 else tasksGet ts k := by
  by_cases h : kv.1 = k <;> simp [tasksGet, List.find?_cons, h]

theorem tasksGet_none_append (ts : List (Nat × ProcessingTask)) (j k : Nat)
    (v : ProcessingTask) (hnone : tasksGet ts k = none) (hne : j ≠ k) :
    tasksGet (ts ++ [(j, v)]) k = none := by
  induction ts with
  | nil => simp [tasksGet_cons, hne, tasksGet]
  | cons kv ts ih =>
    rw [tasksGet_cons] at hnone
    by_cases h : kv.1 = k
    · simp [h] at hnone
    · rw [List.cons_append, tasksGet_cons, if_neg h]
      exact ih (by simpa [h] using hnone)

theorem tasksGet_none_mapSet (ts : List (Nat × ProcessingTask)) (j k : Nat)
    (v : ProcessingTask) (hnone : tasksGet ts k = none) :
    tasksGet (ts.map (fun kv => if kv.1 == j then (j, v) else kv)) k = none := by
  induction ts with
  | nil => simp [tasksGet]
  | cons kv ts ih =>
    rw [tasksGet_cons] at hnone
    by_cases h : kv.1 = k
    · simp [h] at hnone
    · have htail := ih (by simpa [h] using hnone)
      rw [List.map_cons]
      by_cases hj : kv.1 = j
      · have hjk : j ≠ k := fun he => h (hj.trans he)
        rw [if_pos (by simpa using hj), tasksGet_cons, if_neg hjk]
        exact htail
      · rw [if_neg (by simpa using hj), tasksGet_cons, if_neg h]
        exact htail

theorem optionMap_isSome {A B : Type} (o : Option A) (f : A → B) :
    (o.map f).isSome = o.isSome := by
  cases o <;> rfl

theorem tasksAny_of_isSome (ts : List (Nat × ProcessingTask)) (j : Nat)
    (hj : (tasksGet ts j).isSome) :
    ts.any (fun kv => kv.1 == j) = true := by
  rw [tasksGet, optionMap_isSome, List.find?_isSome] at hj
  exact List.any_eq_true.mpr hj

theorem tasksGet_none_set (ts : List (Nat × ProcessingTask)) (j k : Nat)
    (v : ProcessingTask) (hj : (tasksGet ts j).isSome)
    (hnone : tasksGet ts k = none) :
    tasksGet (tasksSet ts j v) k = none := by
  rw [tasksSet, if_pos (tasksAny_of_isSome ts j hj)]
  exact tasksGet_none_mapSet ts j k v hnone

theorem tasksGet_mapSet_self (ts : List (Nat × ProcessingTask)) (j : Nat)
    (v : ProcessingTask) (hj : (tasksGet ts j).isSome) :
    tasksGet (ts.map (fun kv => if kv.1 == j then (j, v) else kv)) j = some v := by
  induction ts with
  | nil => simp [tasksGet] at hj
  | cons kv ts ih =>
    by_cases h : kv.1 = j
    · rw [List.map_cons, if_pos (by simpa using h), tasksGet_cons]
      simp
    · rw [tasksGet_cons, if_neg h] at hj
      rw [List.map_cons, if_neg (by simpa using h), tasksGet_cons, if_neg h]
      exact ih hj

theorem tasksGet_set_self (ts : List (Nat × ProcessingTask)) (j : Nat)
    (v : ProcessingTask) (hj : (tasksGet ts j).isSome) :
    tasksGet (tasksSet ts j v) j = some v := by
  rw [tasksSet, if_pos (tasksAny_of_isSome ts j hj)]
  exact tasksGet_mapSet_self ts j v hj

theorem tasksGet_none_filter (ts : List (Nat × ProcessingTask)) (k : Nat)
    (p : Nat × ProcessingTask → Bool) (hnone : tasksGet ts k = none) :
    tasksGet (ts.filter p) k = none := by
  induction ts with
  | nil => simp [tasksGet]
  | cons kv ts ih =>
    rw [tasksGet_cons] at hnone
    by_cases h : kv.1 = k
    · simp [h] at hnone
    · have htail := ih (by simpa [h] using hnone)
      rw [List.filter_cons]
      split
      · rw [tasksGet_cons, if_neg h]
        exact htail
      · exact htail

theorem tasksGet_pop_self (ts : List (Nat × ProcessingTask)) (k : Nat) :
    tasksGet (tasksPop ts k) k = none := by
  rw [tasksPop]
  induction ts with
  | nil => simp [tasksGet]
  | cons kv ts ih =>
    rw [List.filter_cons]
    by_cases h : kv.1 = k
    · simp only [h, bne_self_eq_false]
      exact ih
    · rw [if_pos (by simpa using h), tasksGet_cons, if_neg h]
      exact ih

theorem tasksGet_some_key (ts : List (Nat × ProcessingTask))
    (hwf : ∀ kv ∈ ts, kv.2.taskKey = kv.1) (k : Nat) (t : ProcessingTask)
    (h : tasksGet ts k = some t) : t.taskKey = k := by
  rw [tasksGet] at h
  obtain ⟨kv, hfind, hval⟩ := Option.map_eq_some'.mp h
  have hk : kv.1 = k := by simpa using List.find?_some hfind
  have hmem := List.mem_of_find?_eq_some hfind
  rw [← hval, hwf kv hmem, hk]

theorem getLoop_cons_none (ts : List (Nat × ProcessingTask)) (k2 : Nat)
    (rest : List Nat) (hk : tasksGet ts k2 = none) :
    getLoop ts (k2 :: rest) = getLoop ts rest := by
  rw [getLoop, hk]

theorem getLoop_cons_ready (ts : List (Nat × ProcessingTask)) (k2 : Nat)
    (rest : List Nat) (t0 : ProcessingTask) (hk : tasksGet ts k2 = some t0)
    (hst : t0.state = TaskState.pending ∨ t0.state = TaskState.returned) :
    getLoop ts (k2 :: rest) =
      (rest, tasksSet ts k2 { t0 with state := TaskState.inProgress },
        some { t0 with state := TaskState.inProgress }) := by
  rw [getLoop, hk]
  exact if_pos hst

theorem getLoop_cons_skip (ts : List (Nat × ProcessingTask)) (k2 : Nat)
    (rest : List Nat) (t0 : ProcessingTask) (hk : tasksGet ts k2 = some t0)
    (hst : ¬ (t0.state = TaskState.pending ∨ t0.state = TaskState.returned)) :
    getLoop ts (k2 :: rest) = getLoop ts rest := by
  rw [getLoop, hk]
  exact if_neg hst

theorem getLoop_some (ts : List (Nat × ProcessingTask))
    (hwf : ∀ kv ∈ ts, kv.2.taskKey = kv.1) :
    ∀ (order : List Nat) (t : ProcessingTask),
      (getLoop ts order).2.2 = some t →
      ∃ t0, tasksGet ts t.taskKey = some t0 ∧
        (t0.state = TaskState.pending ∨ t0.state = TaskState.returned) ∧
        t = { t0 with state := TaskState.inProgress } ∧
        tasksGet (getLoop ts order).2.1 t.taskKey = some t := by
  intro order
  induction order with
  | nil => intro t h; simp [getLoop] at h
  | cons k2 rest ih =>
    intro t h
    cases hk : tasksGet ts k2 with
    | none =>
      rw [getLoop_cons_none ts k2 rest hk] at h ⊢
      exact ih t h
    | some t0 =>
      by_cases hst : t0.state = TaskState.pending ∨ t0.state = TaskState.returned
      · rw [getLoop_cons_ready ts k2 rest t0 hk hst] at h ⊢
        have ht : t = { t0 with state := TaskState.inProgress } := by
          simpa using h.symm
        have hkey : t.taskKey = k2 := by
          rw [ht]
          exact tasksGet_some_key ts hwf k2 t0 hk
        refine ⟨t0, ?_, hst, ht, ?_⟩
        · rw [hkey]
          exact hk
        · show tasksGet (tasksSet ts k2 _) t.taskKey = some t
          rw [hkey, ht]
          exact tasksGet_set_self ts k2 _ (by simp [hk])
      · rw [getLoop_cons_skip ts k2 rest t0 hk hst] at h ⊢
        exact ih t h

theorem getLoop_none (ts : List (Nat × ProcessingTask)) (k : Nat)
    (hnone : tasksGet ts k = none) :
    ∀ order, tasksGet (getLoop ts order).2.1 k = none := by
  intro order
  induction order with
  | nil => simpa [getLoop]
  | cons k2 rest ih =>
    cases hk : tasksGet ts k2 with
    | none =>
      rw [getLoop_cons_none ts k2 rest hk]
      exact ih
    | some t0 =>
      by_cases hst : t0.state = TaskState.pending ∨ t0.state = TaskState.returned
      · rw [getLoop_cons_ready ts k2 rest t0 hk hst]
        exact tasksGet_none_set ts k2 k _ (by simp [hk]) hnone
      · rw [getLoop_cons_skip ts k2 rest t0 hk hst]
        exact ih

theorem retryTask_missing (q : TaskQueue) (k : Nat) (lp : Option String)
    (hk : tasksGet q.tasks k = none) : retryTask q k lp = (q, false) := by
  rw [retryTask, hk]

theorem retryTask_exhaust (q : TaskQueue) (k : Nat) (lp : Option String)
    (t : ProcessingTask) (hk : tasksGet q.tasks k = some t)
    (hmax : q.maxAttempts < t.attempt + 1) :
    retryTask q k lp = ({ q with tasks := tasksPop q.tasks k }, false) := by
  rw [retryTask, hk]
  exact if_pos hmax

theorem retryTask_requeue (q : TaskQueue) (k : Nat) (lp : Option String)
    (t : ProcessingTask) (hk : tasksGet q.tasks k = some t)
    (hmax : ¬ q.maxAttempts < t.attempt + 1) :
    retryTask q k lp =
      ({ q with
          tasks := tasksSet q.tasks k
            { t with
                lastProxy := lp
                attempt := t.attempt + 1
                state := TaskState.returned }
          pendingOrder := q.pendingOrder ++ [k] }, true) := by
  rw [retryTask, hk]
  exact if_neg hmax

theorem putManyFold_none (k : Nat) :
    ∀ (items : List (Nat × Nat)) (acc : TaskQueue × Nat),
      tasksGet acc.1.tasks k = none →
      items.any (fun kv => kv.1 == k) = false →
      tasksGet ((items.foldl putManyStep acc).1).tasks k = none := by
  intro items
  induction items with
  | nil =>
    intro acc h _
    exact h
  | cons item rest ih =>
    intro acc h hany
    rw [List.any_cons, Bool.or_eq_false_iff] at hany
    rw [List.foldl_cons]
    apply ih
    · rw [putManyStep]
      split
      · exact h
      · exact tasksGet_none_append _ _ _ _ h (by simpa using hany.1)
    · exact hany.2

theorem applyQueueOp_none (q : TaskQueue) (k : Nat) (op : QueueOp)
    (hnone : tasksGet q.tasks k = none) (hput : opPutsKey k op = false) :
    tasksGet (applyQueueOp q op).tasks k = none := by
  cases op with
  | putMany items =>
    exact putManyFold_none k items (q, 0) hnone (by simpa [opPutsKey] using hput)
  | getOp =>
    rw [applyQueueOp, getTask]
    split
    · exact hnone
    · exact getLoop_none q.tasks k hnone q.pendingOrder
  | markDone k2 => exact tasksGet_none_filter _ _ _ hnone
  | retryOp k2 lp =>
    rw [applyQueueOp]
    cases hk : tasksGet q.tasks k2 with
    | none => rw [retryTask_missing q k2 lp hk]; exact hnone
    | some t =>
      by_cases hmax : q.maxAttempts < t.attempt + 1
      · rw [retryTask_exhaust q k2 lp t hk hmax]
        exact tasksGet_none_filter _ _ _ hnone
      · rw [retryTask_requeue q k2 lp t hk hmax]
        exact tasksGet_none_set _ _ _ _ (by simp [hk]) hnone
  | abandonOp k2 => exact tasksGet_none_filter _ _ _ hnone
  | pauseOp =>
    rw [applyQueueOp, pauseQueue]
    split <;> exact hnone
  | resumeOp =>
    rw [applyQueueOp, resumeQueue]
    split <;> exact hnone

theorem runQueueOps_none (k : Nat) :
    ∀ (ops : List QueueOp) (q : TaskQueue),
      tasksGet q.tasks k = none →
      (∀ op ∈ ops, opPutsKey k op = false) →
      tasksGet (runQueueOps q ops).tasks k = none := by
  intro ops
  induction ops with
  | nil => intro q h _; exact h
  | cons op rest ih =>
    intro q h hput
    rw [runQueueOps, List.foldl_cons]
    exact ih (applyQueueOp q op)
      (applyQueueOp_none q k op h (hput op (by simp)))
      (fun o ho => hput o (List.mem_cons_of_mem _ ho))

theorem mem_pendingKeys_isSome (q : TaskQueue) (k : Nat)
    (h : k ∈ pendingKeys q) : (tasksGet q.tasks k).isSome := by
  rw [pendingKeys, List.mem_map] at h
  obtain ⟨kv, hkv, rfl⟩ := h
  rw [tasksGet, optionMap_isSome, List.find?_isSome]
  exact ⟨kv, List.mem_of_mem_filter hkv, by simp⟩

/-- C1 counterexample: with `max_attempts = 1`, key 0 is dispatched, its
retry exhausts the budget and drops it (retry returns `false` and the key is
gone from the queue) — yet a later `put_many([(0, 10)])` re-enqueues the very
same key and `get()` hands it out again, so an exhausted key is not
permanently unobservable, contradicting the claim's "permanently dropped"
under its universal quantification over put_many/get/retry sequences. -/
theorem taskqueue_drop_counterexample :
    (retryTask queueAfterGet 0 none).2 = false ∧
    tasksGet queueDropped.tasks 0 = none ∧
    ((getTask queueReput).2).map (fun t => t.taskKey) = some 0 := by decide

/-- C1 amended: `get()` only dispatches tasks in state `PENDING` or
`RETURNED` and marks them `IN_PROGRESS` — a key is never handed out while its
instance is `IN_PROGRESS`; a retry whose bumped attempt counter exceeds
`max_attempts` drops the key and returns `false`; and a key absent from the
queue stays unobservable — not dispatched by `get()`, not counted by
`pending_count()` — across every operation sequence that does not re-enqueue
that key via `put_many`. -/
theorem taskqueue_no_double_dispatch_and_drop (q : TaskQueue) (k : Nat)
    (hwf : QueueWF q) :
    (∀ t, (getTask q).2 = some t →
      ∃ t0, tasksGet q.tasks t.taskKey = some t0 ∧
        (t0.state = TaskState.pending ∨ t0.state = TaskState.returned) ∧
        t = { t0 with state := TaskState.inProgress } ∧
        tasksGet (getTask q).1.tasks t.taskKey = some t) ∧
    (∀ t lp, tasksGet q.tasks k = some t → q.maxAttempts < t.attempt + 1 →
      (retryTask q k lp).2 = false ∧
      tasksGet (retryTask q k lp).1.tasks k = none) ∧
    (tasksGet q.tasks k = none →
      (∀ ops, (∀ op ∈ ops, opPutsKey k op = false) →
        tasksGet (runQueueOps q ops).tasks k = none) ∧
      (∀ t, (getTask q).2 = some t → t.taskKey ≠ k) ∧
      k ∉ pendingKeys q) := by
  refine ⟨?_, ?_, ?_⟩
  · intro t h
    by_cases hp : q.paused
    · rw [getTask, if_pos hp] at h
      simp at h
    · rw [getTask, if_neg hp] at h ⊢
      exact getLoop_some q.tasks hwf q.pendingOrder t h
  · intro t lp hk hmax
    rw [retryTask_exhaust q k lp t hk hmax]
    exact ⟨rfl, tasksGet_pop_self q.tasks k⟩
  · intro hnone
    refine ⟨fun ops hput => runQueueOps_none k ops q hnone hput, ?_, ?_⟩
    · intro t h hkey
      by_cases hp : q.paused
      · rw [getTask, if_pos hp] at h
        simp at h
      · rw [getTask, if_neg hp] at h
        obtain ⟨t0, ht0, -, -, -⟩ := getLoop_some q.tasks hwf q.pendingOrder t h
        rw [hkey, hnone] at ht0
        exact Option.noConfusion ht0
    · intro hmem
      have := mem_pendingKeys_isSome q k hmem
      rw [hnone] at this
      simp at this

/-- Witness: in the concrete trace, after the exhausted retry the key is
gone, remains gone across further non-re-enqueueing operations, is never
counted as pending, and the exhausting retry itself returned `false`. -/
theorem taskqueue_no_double_dispatch_and_drop_witness :
    tasksGet queueDropped.tasks 0 = none ∧
    tasksGet (runQueueOps queueDropped
      [QueueOp.getOp, QueueOp.retryOp 0 none, QueueOp.pauseOp]).tasks 0 = none ∧
    0 ∉ pendingKeys queueDropped ∧
    (retryTask queueAfterGet 0 none).2 = false := by
  have h := taskqueue_no_double_dispatch_and_drop queueDropped 0 (by decide)
  have hnone : tasksGet queueDropped.tasks 0 = none := by decide
  have h3 := h.2.2 hnone
  have h2 := taskqueue_no_double_dispatch_and_drop queueAfterGet 0 (by decide)
  refine ⟨hnone, h3.1 _ (by decide), h3.2.2, ?_⟩
  exact (h2.2.1
    { taskKey := 0, payload := 10, attempt := 1,
      state := TaskState.inProgress, lastProxy := none } none
    (by decide) (by decide)).1

theorem acquireLoop_out :
    ∀ (n : Nat) (p : ProxyPool),
      (acquireLoop p n).1.blocked = p.blocked ∧
      (acquireLoop p n).1.proxies = p.proxies ∧
      ((acquireLoop p n).2 = none → (acquireLoop p n).1.inUse = p.inUse) ∧
      (∀ a, (acquireLoop p n).2 = some a →
        (acquireLoop p n).1.inUse = a :: p.inUse ∧
        a ∉ p.blocked ∧ a ∉ p.inUse) := by
  intro n
  induction n with
  | zero =>
    intro p
    refine ⟨rfl, rfl, fun _ => rfl, fun a h => ?_⟩
    simp [acquireLoop] at h
  | succ n ih =>
    intro p
    rw [acquireLoop]
    by_cases hb : p.proxies.getD p.cursor "" ∈ p.blocked
    · rw [if_pos hb]
      exact ih _
    · rw [if_neg hb]
      by_cases hu : p.proxies.getD p.cursor "" ∈ p.inUse
      · rw [if_pos hu]
        exact ih _
      · rw [if_neg hu]
        refine ⟨rfl, rfl, fun h => ?_, fun a h => ?_⟩
        · simp at h
        · have ha : a = p.proxies.getD p.cursor "" := by simpa using h.symm
          subst ha
          exact ⟨rfl, hb, hu⟩

theorem acquireLoop_mem_proxies :
    ∀ (n : Nat) (p : ProxyPool), p.cursor < p.proxies.length →
      ∀ a, (acquireLoop p n).2 = some a → a ∈ p.proxies := by
  intro n
  induction n with
  | zero =>
    intro p _ a h
    simp [acquireLoop] at h
  | succ n ih =>
    intro p hcur a h
    rw [acquireLoop] at h
    have hpos : 0 < p.proxies.length := Nat.lt_of_le_of_lt (Nat.zero_le _) hcur
    have hcur2 : ((p.cursor + 1) % p.proxies.length) < p.proxies.length :=
      Nat.mod_lt _ hpos
    by_cases hb : p.proxies.getD p.cursor "" ∈ p.blocked
    · rw [if_pos hb] at h
      exact ih { p with cursor := (p.cursor + 1) % p.proxies.length } hcur2 a h
    · rw [if_neg hb] at h
      by_cases hu : p.proxies.getD p.cursor "" ∈ p.inUse
      · rw [if_pos hu] at h
        exact ih { p with cursor := (p.cursor + 1) % p.proxies.length } hcur2 a h
      · rw [if_neg hu] at h
        have ha : a = p.proxies.getD p.cursor "" := by simpa using h.symm
        subst ha
        rw [List.getD_eq_getElem p.proxies "" hcur]
        exact List.getElem_mem hcur

theorem acquireLoop_no_free :
    ∀ (n : Nat) (p : ProxyPool), p.cursor < p.proxies.length →
      (∀ a ∈ p.proxies, a ∈ p.blocked ∨ a ∈ p.inUse) →
      (acquireLoop p n).2 = none := by
  intro n
  induction n with
  | zero => intro p _ _; rfl
  | succ n ih =>
    intro p hcur hall
    rw [acquireLoop]
    have hpos : 0 < p.proxies.length := Nat.lt_of_le_of_lt (Nat.zero_le _) hcur
    have hcur2 : ((p.cursor + 1) % p.proxies.length) < p.proxies.length :=
      Nat.mod_lt _ hpos
    have hmem : p.proxies.getD p.cursor "" ∈ p.proxies := by
      rw [List.getD_eq_getElem p.proxies "" hcur]
      exact List.getElem_mem hcur
    by_cases hb : p.proxies.getD p.cursor "" ∈ p.blocked
    · rw [if_pos hb]
      exact ih { p with cursor := (p.cursor + 1) % p.proxies.length } hcur2 hall
    · rw [if_neg hb]
      rcases hall _ hmem with hbl | hus
      · exact absurd hbl hb
      · rw [if_pos hus]
        exact ih { p with cursor := (p.cursor + 1) % p.proxies.length } hcur2 hall

theorem applyPoolOp_disjoint (p : ProxyPool) (hd : PoolDisjoint p) (op : PoolOp) :
    PoolDisjoint (applyPoolOp p op) := by
  cases op with
  | acquireOp =>
    show PoolDisjoint (acquire p).1
    rw [acquire]
    split
    · exact hd
    · intro b hb hbl
      obtain ⟨hblocked, -, hnone, hsome⟩ :=
        acquireLoop_out p.proxies.length p
      rw [hblocked] at hbl
      cases hr : (acquireLoop p p.proxies.length).2 with
      | none =>
        rw [hnone hr] at hb
        exact hd b hb hbl
      | some a =>
        obtain ⟨hin, hanb, -⟩ := hsome a hr
        rw [hin] at hb
        rcases List.mem_cons.mp hb with rfl | hb2
        · exact hanb hbl
        · exact hd b hb2 hbl
  | releaseOp a =>
    intro b hb hbl
    exact hd b (List.mem_of_mem_filter hb) hbl
  | markBlockedOp a =>
    intro b hb hbl
    have hbmem := List.mem_of_mem_filter hb
    have hbna : b ≠ a := by simpa using List.of_mem_filter hb
    rw [applyPoolOp, mark_blocked] at hbl
    simp only at hbl
    split at hbl
    · exact hd b hbmem hbl
    · rcases List.mem_cons.mp hbl with rfl | hbl2
      · exact hbna rfl
      · exact hd b hbmem hbl2

theorem runPoolOps_disjoint (p : ProxyPool) (hd : PoolDisjoint p) :
    ∀ ops : List PoolOp, PoolDisjoint (runPoolOps p ops) := by
  intro ops
  induction ops generalizing p with
  | nil => exact hd
  | cons op rest ih =>
    rw [runPoolOps, List.foldl_cons]
    exact ih _ (applyPoolOp_disjoint p hd op)

/-- C2 counterexample: acquire the only proxy, then `reload` with a blocked
file that lists the in-use address — the address ends up simultaneously
in-use and blocked, because `reload` filters the in-use set only against the
new proxy list, never against the new blocked set; the claimed disjointness
over every acquire/release/mark_blocked/reload sequence is false. -/
theorem proxypool_reload_counterexample :
    (acquire poolStart).2 = some "a" ∧
    "a" ∈ poolReloaded.inUse ∧ "a" ∈ poolReloaded.blocked := by decide

/-- C2 amended: over every sequence of acquire/release/mark_blocked
operations (reload excluded: reloading with a blocked file that lists an
in-use address violates it), the in-use and blocked sets stay disjoint;
`acquire` returns only an endpoint of the ring that is neither blocked nor
in-use, marking it in-use, scans at most one revolution, and returns `none`
when every endpoint is blocked or in-use. -/
theorem proxypool_disjoint_and_acquire (p : ProxyPool) (hd : PoolDisjoint p)
    (hw : PoolWF p) :
    (∀ ops : List PoolOp, PoolDisjoint (runPoolOps p ops)) ∧
    (∀ p2 a, acquire p = (p2, some a) →
      a ∈ p.proxies ∧ a ∉ p.blocked ∧ a ∉ p.inUse ∧ p2.inUse = a :: p.inUse) ∧
    ((∀ a ∈ p.proxies, a ∈ p.blocked ∨ a ∈ p.inUse) → (acquire p).2 = none) := by
  refine ⟨runPoolOps_disjoint p hd, ?_, ?_⟩
  · intro p2 a h
    rw [acquire] at h
    split at h
    · simp at h
    · have hne : p.proxies ≠ [] := by
        rename_i hlen
        intro hnil
        exact hlen (by rw [hnil]; rfl)
      have hcur : p.cursor < p.proxies.length := by
        rcases hw with hnil | hlt
        · exact absurd hnil hne
        · exact hlt
      have hsnd : (acquireLoop p p.proxies.length).2 = some a := by
        rw [h]
      obtain ⟨-, -, -, hsome⟩ := acquireLoop_out p.proxies.length p
      obtain ⟨hin, hnb, hnu⟩ := hsome a hsnd
      refine ⟨acquireLoop_mem_proxies p.proxies.length p hcur a hsnd, hnb, hnu, ?_⟩
      have hfst : (acquireLoop p p.proxies.length).1 = p2 := by rw [h]
      rw [← hfst]
      exact hin
  · intro hall
    rw [acquire]
    split
    · rfl
    · have hne : p.proxies ≠ [] := by
        rename_i hlen
        intro hnil
        exact hlen (by rw [hnil]; rfl)
      have hcur : p.cursor < p.proxies.length := by
        rcases hw with hnil | hlt
        · exact absurd hnil hne
        · exact hlt
      exact acquireLoop_no_free p.proxies.length p hcur hall

/-- Witness: on the single-proxy pool, acquire hands out "a" (fresh, from
the ring, not blocked, not in use) and a second acquire, with "a" in use,
returns `none`. -/
theorem proxypool_disjoint_and_acquire_witness :
    (acquire poolStart).2 = some "a" ∧
    "a" ∈ poolStart.proxies ∧ "a" ∉ poolStart.blocked ∧ "a" ∉ poolStart.inUse ∧
    (acquire poolAcquired).2 = none := by
  have h := proxypool_disjoint_and_acquire poolStart (by decide) (by decide)
  have h2 := proxypool_disjoint_and_acquire poolAcquired (by decide) (by decide)
  obtain ⟨hmem, hnb, hnu, -⟩ := h.2.1 poolAcquired "a" (by decide)
  exact ⟨by decide, hmem, hnb, hnu, h2.2.2 (by decide)⟩

theorem build_result_status (status : CatalogParseStatus) (listings : List Nat)
    (processedPages : Nat) (errorState : Option String) (errorUrl : Option Nat)
    (resumeUrl : Option Nat) (resumePageNumber : Option Nat) (catalogUrl : Nat)
    (cfg : CrawlCfg) :
    (build_result status listings processedPages errorState errorUrl resumeUrl
      resumePageNumber catalogUrl cfg).status = status := by
  rw [build_result]
  split <;> rfl

theorem build_result_proj (status : CatalogParseStatus) (listings : List Nat)
    (processedPages : Nat) (errorState : Option String) (errorUrl : Option Nat)
    (resumeUrl : Option Nat) (resumePageNumber : Option Nat) (catalogUrl : Nat)
    (cfg : CrawlCfg) (hsp : cfg.singlePage = false) :
    (build_result status listings processedPages errorState errorUrl resumeUrl
        resumePageNumber catalogUrl cfg) =
      { status := status, listings := listings,
        meta :=
          { status := status, processedPages := processedPages,
            processedCards := listings.length, lastState := errorState,
            lastUrl := errorUrl.orElse (fun _ => resumeUrl) },
        errorState := errorState, errorUrl := errorUrl,
        resumeUrl := resumeUrl, resumePageNumber := resumePageNumber,
        catalogUrlPriv := catalogUrl, fieldsPriv := cfg.fields,
        maxPagesPriv := cfg.maxPages, sortPriv := cfg.sort,
        startPagePriv := cfg.startPage, includeHtmlPriv := cfg.includeHtml,
        maxCaptchaAttemptsPriv := cfg.maxCaptchaAttempts,
        loadTimeoutPriv := cfg.loadTimeout, loadRetriesPriv := cfg.loadRetries,
        processedPagesPriv := processedPages, singlePagePriv := false } := by
  rw [build_result, if_neg (by simp [hsp])]

theorem finalResult_status (cfg : CrawlCfg) (catalogUrl : Nat)
    (listings : List Nat) (processed : Nat) :
    (finalResult cfg catalogUrl listings processed).status =
        CatalogParseStatus.success ∨
    (finalResult cfg catalogUrl listings processed).status =
        CatalogParseStatus.empty := by
  rw [finalResult]
  split
  · exact Or.inr (build_result_status ..)
  · exact Or.inl (build_result_status ..)

/-- C6 counterexample: on a 3-page catalog of 20 items per page with
`max_pages = 2`, the run returns 40 listings with status `SUCCESS`, but the
successful result carries NO cursor at all — `resume_url` and
`resume_page_number` are both `None` — so no cursor points at page 3 as the
claim requires. -/
theorem catalog_two_page_bound_counterexample :
    (parse_catalog worldOkThree EntryOutcome.proceed 1 1 cfgTwoPages 3).map
      (fun r => (r.status, r.listings.length, r.resumeUrl, r.resumePageNumber)) =
    Except.ok (CatalogParseStatus.success, 40, none, none) := by rfl

/-- C6 amended: the bounded run returns exactly the 40 listings of pages 1
and 2 in crawl order with status `SUCCESS` and `processed_pages = 2`; page 3
is simply not visited, and the result carries no cursor — `_build_result` is
called without resume fields on the successful exit, a cursor accompanies
only non-success exits. -/
theorem catalog_two_page_bound :
    (parse_catalog worldOkThree EntryOutcome.proceed 1 1 cfgTwoPages 3).map
      (fun r => (r.status, r.listings, r.meta.processedPages,
        r.resumeUrl, r.resumePageNumber)) =
    Except.ok (CatalogParseStatus.success,
      (List.range 20).map (fun i => 100 + i) ++
        (List.range 20).map (fun i => 200 + i),
      2, none, none) := by rfl

theorem parseLoop_budget (w : PageWorld) (cfg : CrawlCfg) (cu n pos : Nat)
    (listings : List Nat) (processed : Nat)
    (hb : budgetReached cfg.maxPages processed = true) :
    parseLoop w cfg cu (n + 1) pos listings processed =
      finalResult cfg cu listings processed := by
  rw [parseLoop, if_pos hb]

theorem parseLoop_site_abort (w : PageWorld) (cfg : CrawlCfg) (cu n pos : Nat)
    (listings : List Nat) (processed : Nat)
    (hb : ¬ budgetReached cfg.maxPages processed = true)
    (hse : ¬ ((parse_single_page w.src pos).status = CatalogParseStatus.success ∨
      (parse_single_page w.src pos).status = CatalogParseStatus.empty)) :
    parseLoop w cfg cu (n + 1) pos listings processed =
      build_result (parse_single_page w.src pos).status listings processed
        (parse_single_page w.src pos).errorState
        (parse_single_page w.src pos).errorUrl
        (some pos) (some (cfg.startPage + processed)) cu cfg := by
  rw [parseLoop, if_neg hb, if_neg hse]

theorem parseLoop_page_empty (w : PageWorld) (cfg : CrawlCfg) (cu n pos : Nat)
    (listings : List Nat) (processed : Nat)
    (hb : ¬ budgetReached cfg.maxPages processed = true)
    (hse : (parse_single_page w.src pos).status = CatalogParseStatus.success ∨
      (parse_single_page w.src pos).status = CatalogParseStatus.empty)
    (hemp : (parse_single_page w.src pos).status = CatalogParseStatus.empty) :
    parseLoop w cfg cu (n + 1) pos listings processed =
      finalResult cfg cu (listings ++ (parse_single_page w.src pos).cards)
        (processed + 1) := by
  rw [parseLoop, if_neg hb, if_pos hse, if_pos hemp]

theorem parseLoop_no_next (w : PageWorld) (cfg : CrawlCfg) (cu n pos : Nat)
    (listings : List Nat) (processed : Nat)
    (hb : ¬ budgetReached cfg.maxPages processed = true)
    (hse : (parse_single_page w.src pos).status = CatalogParseStatus.success ∨
      (parse_single_page w.src pos).status = CatalogParseStatus.empty)
    (hemp : ¬ (parse_single_page w.src pos).status = CatalogParseStatus.empty)
    (hnext : (parse_single_page w.src pos).hasNext = false) :
    parseLoop w cfg cu (n + 1) pos listings processed =
      finalResult cfg cu (listings ++ (parse_single_page w.src pos).cards)
        (processed + 1) := by
  rw [parseLoop, if_neg hb, if_pos hse, if_neg hemp, if_pos hnext]

theorem parseLoop_budget_after (w : PageWorld) (cfg : CrawlCfg) (cu n pos : Nat)
    (listings : List Nat) (processed : Nat)
    (hb : ¬ budgetReached cfg.maxPages processed = true)
    (hse : (parse_single_page w.src pos).status = CatalogParseStatus.success ∨
      (parse_single_page w.src pos).status = CatalogParseStatus.empty)
    (hemp : ¬ (parse_single_page w.src pos).status = CatalogParseStatus.empty)
    (hnext : ¬ (parse_single_page w.src pos).hasNext = false)
    (hb2 : budgetReached cfg.maxPages (processed + 1) = true) :
    parseLoop w cfg cu (n + 1) pos listings processed =
      finalResult cfg cu (listings ++ (parse_single_page w.src pos).cards)
        (processed + 1) := by
  rw [parseLoop, if_neg hb, if_pos hse, if_neg hemp, if_neg hnext, if_pos hb2]

theorem parseLoop_nav_ok (w : PageWorld) (cfg : CrawlCfg) (cu n pos : Nat)
    (listings : List Nat) (processed : Nat)
    (hb : ¬ budgetReached cfg.maxPages processed = true)
    (hse : (parse_single_page w.src pos).status = CatalogParseStatus.success ∨
      (parse_single_page w.src pos).status = CatalogParseStatus.empty)
    (hemp : ¬ (parse_single_page w.src pos).status = CatalogParseStatus.empty)
    (hnext : ¬ (parse_single_page w.src pos).hasNext = false)
    (hb2 : ¬ budgetReached cfg.maxPages (processed + 1) = true)
    (hnav : w.nav (pos + 1) = NavOutcome.ok) :
    parseLoop w cfg cu (n + 1) pos listings processed =
      parseLoop w cfg cu n (pos + 1)
        (listings ++ (parse_single_page w.src pos).cards) (processed + 1) := by
  rw [parseLoop, if_neg hb, if_pos hse, if_neg hemp, if_neg hnext, if_neg hb2, hnav]

theorem parseLoop_nav_timeout (w : PageWorld) (cfg : CrawlCfg) (cu n pos : Nat)
    (listings : List Nat) (processed : Nat)
    (hb : ¬ budgetReached cfg.maxPages processed = true)
    (hse : (parse_single_page w.src pos).status = CatalogParseStatus.success ∨
      (parse_single_page w.src pos).status = CatalogParseStatus.empty)
    (hemp : ¬ (parse_single_page w.src pos).status = CatalogParseStatus.empty)
    (hnext : ¬ (parse_single_page w.src pos).hasNext = false)
    (hb2 : ¬ budgetReached cfg.maxPages (processed + 1) = true)
    (hnav : w.nav (pos + 1) = NavOutcome.timeoutExhausted) :
    parseLoop w cfg cu (n + 1) pos listings processed =
      build_result CatalogParseStatus.loadTimeout
        (listings ++ (parse_single_page w.src pos).cards) (processed + 1)
        (some "timeout") (some (pos + 1)) (some (pos + 1))
        (some (cfg.startPage + (processed + 1))) cu cfg := by
  rw [parseLoop, if_neg hb, if_pos hse, if_neg hemp, if_neg hnext, if_neg hb2, hnav]

theorem parseLoop_nav_server (w : PageWorld) (cfg : CrawlCfg) (cu n pos : Nat)
    (listings : List Nat) (processed : Nat)
    (hb : ¬ budgetReached cfg.maxPages processed = true)
    (hse : (parse_single_page w.src pos).status = CatalogParseStatus.success ∨
      (parse_single_page w.src pos).status = CatalogParseStatus.empty)
    (hemp : ¬ (parse_single_page w.src pos).status = CatalogParseStatus.empty)
    (hnext : ¬ (parse_single_page w.src pos).hasNext = false)
    (hb2 : ¬ budgetReached cfg.maxPages (processed + 1) = true)
    (hnav : w.nav (pos + 1) = NavOutcome.serverExhausted) :
    parseLoop w cfg cu (n + 1) pos listings processed =
      build_result CatalogParseStatus.serverUnavailable
        (listings ++ (parse_single_page w.src pos).cards) (processed + 1)
        (some "server_error_5xx_detector") (some (pos + 1)) (some (pos + 1))
        (some (cfg.startPage + (processed + 1))) cu cfg := by
  rw [parseLoop, if_neg hb, if_pos hse, if_neg hemp, if_neg hnext, if_neg hb2, hnav]

/-- C5 counterexample: a run aborted before the per-page loop — here a 403
proxy block right after navigation — returns a non-success status whose
result does carry a resume URL but NO next page number
(`resume_page_number = None`), because every pre-loop `_build_result` call
omits it; the claimed cursor with "the next page number" does not hold for
every non-success run. -/
theorem catalog_preloop_cursor_counterexample :
    (parse_catalog worldBlockedPage
        (EntryOutcome.blockedPre CatalogParseStatus.proxyBlocked
          "proxy_block_403_detector") 1 1 cfgTwoPages 1).map
      (fun r => (r.status, r.listings, r.resumeUrl, r.resumePageNumber)) =
    Except.ok (CatalogParseStatus.proxyBlocked, [], some 1, none) := by rfl

/-- C5 amended: outside `single_page` mode, every non-success exit of the
per-page loop keeps all previously accumulated listings as a prefix of the
returned listings and carries a cursor: a resume URL, the next page number
`start_page + processed_pages`, and the original field/sort/bound/start
parameters; pre-loop aborts (before any page is parsed) carry the resume URL
and the parameters but leave the page number unset. -/
theorem parseLoop_abort_cursor (w : PageWorld) (cfg : CrawlCfg) (cu : Nat)
    (hsp : cfg.singlePage = false) :
    ∀ (fuel pos : Nat) (listings : List Nat) (processed : Nat),
      (parseLoop w cfg cu fuel pos listings processed).status ≠
        CatalogParseStatus.success →
      (parseLoop w cfg cu fuel pos listings processed).status ≠
        CatalogParseStatus.empty →
      (∃ tail, (parseLoop w cfg cu fuel pos listings processed).listings =
        listings ++ tail) ∧
      (parseLoop w cfg cu fuel pos listings processed).resumeUrl.isSome = true ∧
      (parseLoop w cfg cu fuel pos listings processed).resumePageNumber =
        some (cfg.startPage +
          (parseLoop w cfg cu fuel pos listings processed).meta.processedPages) ∧
      (parseLoop w cfg cu fuel pos listings processed).fieldsPriv = cfg.fields ∧
      (parseLoop w cfg cu fuel pos listings processed).sortPriv = cfg.sort ∧
      (parseLoop w cfg cu fuel pos listings processed).maxPagesPriv = cfg.maxPages ∧
      (parseLoop w cfg cu fuel pos listings processed).startPagePriv =
        cfg.startPage := by
  intro fuel
  induction fuel with
  | zero =>
    intro pos listings processed h1 h2
    rcases finalResult_status cfg cu listings processed with h | h
    · exact absurd h h1
    · exact absurd h h2
  | succ n ih =>
    intro pos listings processed h1 h2
    by_cases hb : budgetReached cfg.maxPages processed = true
    · rw [parseLoop_budget w cfg cu n pos listings processed hb] at h1 h2
      rcases finalResult_status cfg cu listings processed with h | h
      · exact absurd h h1
      · exact absurd h h2
    · by_cases hse : (parse_single_page w.src pos).status =
          CatalogParseStatus.success ∨
          (parse_single_page w.src pos).status = CatalogParseStatus.empty
      · by_cases hemp : (parse_single_page w.src pos).status =
            CatalogParseStatus.empty
        · rw [parseLoop_page_empty w cfg cu n pos listings processed hb hse hemp]
            at h1 h2 ⊢
          rcases finalResult_status cfg cu
              (listings ++ (parse_single_page w.src pos).cards)
              (processed + 1) with h | h
          · exact absurd h h1
          · exact absurd h h2
        · by_cases hnext : (parse_single_page w.src pos).hasNext = false
          · rw [parseLoop_no_next w cfg cu n pos listings processed hb hse hemp
              hnext] at h1 h2 ⊢
            rcases finalResult_status cfg cu
                (listings ++ (parse_single_page w.src pos).cards)
                (processed + 1) with h | h
            · exact absurd h h1
            · exact absurd h h2
          · by_cases hb2 : budgetReached cfg.maxPages (processed + 1) = true
            · rw [parseLoop_budget_after w cfg cu n pos listings processed hb
                hse hemp hnext hb2] at h1 h2 ⊢
              rcases finalResult_status cfg cu
                  (listings ++ (parse_single_page w.src pos).cards)
                  (processed + 1) with h | h
              · exact absurd h h1
              · exact absurd h h2
            · cases hnav : w.nav (pos + 1) with
              | ok =>
                rw [parseLoop_nav_ok w cfg cu n pos listings processed hb hse
                  hemp hnext hb2 hnav] at h1 h2 ⊢
                obtain ⟨⟨tail, htail⟩, hrest⟩ :=
                  ih (pos + 1) (listings ++ (parse_single_page w.src pos).cards)
                    (processed + 1) h1 h2
                refine ⟨⟨(parse_single_page w.src pos).cards ++ tail, ?_⟩, hrest⟩
                rw [htail, List.append_assoc]
              | timeoutExhausted =>
                rw [parseLoop_nav_timeout w cfg cu n pos listings processed hb
                  hse hemp hnext hb2 hnav,
                  build_result_proj _ _ _ _ _ _ _ _ _ hsp]
                exact ⟨⟨(parse_single_page w.src pos).cards, rfl⟩, rfl, rfl,
                  rfl, rfl, rfl, rfl⟩
              | serverExhausted =>
                rw [parseLoop_nav_server w cfg cu n pos listings processed hb
                  hse hemp hnext hb2 hnav,
                  build_result_proj _ _ _ _ _ _ _ _ _ hsp]
                exact ⟨⟨(parse_single_page w.src pos).cards, rfl⟩, rfl, rfl,
                  rfl, rfl, rfl, rfl⟩
      · rw [parseLoop_site_abort w cfg cu n pos listings processed hb hse,
          build_result_proj _ _ _ _ _ _ _ _ _ hsp]
        exact ⟨⟨[], (List.append_nil listings).symm⟩, rfl, rfl, rfl, rfl, rfl, rfl⟩

/-- Witness: one loop step on an all-blocked-pages world aborts with
`PROXY_BLOCKED`, keeps the (empty) accumulated listings, and carries the full
cursor. -/
theorem parseLoop_abort_cursor_witness :
    (parseLoop worldBlockedPage cfgTwoPages 1 1 1 [] 0).status =
      CatalogParseStatus.proxyBlocked ∧
    (parseLoop worldBlockedPage cfgTwoPages 1 1 1 [] 0).resumeUrl.isSome = true ∧
    (parseLoop worldBlockedPage cfgTwoPages 1 1 1 [] 0).resumePageNumber =
      some (1 + (parseLoop worldBlockedPage cfgTwoPages 1 1 1 [] 0).meta.processedPages) ∧
    (parseLoop worldBlockedPage cfgTwoPages 1 1 1 [] 0).fieldsPriv = ["item_id"] := by
  have h := parseLoop_abort_cursor worldBlockedPage cfgTwoPages 1 rfl 1 1 [] 0
    (by decide) (by decide)
  exact ⟨by decide, h.2.1, h.2.2.1, h.2.2.2.1⟩

theorem parse_catalog_proceed (w : PageWorld) (cu pos : Nat) (cfg : CrawlCfg)
    (fuel : Nat) (hsp : cfg.singlePage = false) :
    parse_catalog w EntryOutcome.proceed cu pos cfg fuel =
      Except.ok (parseLoop w cfg cu fuel pos [] 0) := by
  simp [parse_catalog, hsp]

theorem cardsSeq_zero (src : Nat → SpecPage) (pos : Nat) :
    cardsSeq src pos 0 = [] := rfl

theorem cardsSeq_succ_front (src : Nat → SpecPage) (pos j : Nat) :
    cardsSeq src pos (j + 1) = (src pos).cards ++ cardsSeq src (pos + 1) j := by
  rw [cardsSeq, cardsSeq]
  simp only [List.range_succ_eq_map, List.flatMap_cons, List.flatMap_map,
    Nat.add_zero]
  have h : (fun a => (src (pos + Nat.succ a)).cards) =
      (fun i => (src (pos + 1 + i)).cards) := by
    funext i
    congr 2
    omega
  rw [h]

theorem cardsSeq_succ_back (src : Nat → SpecPage) (pos j : Nat) :
    cardsSeq src pos (j + 1) = cardsSeq src pos j ++ (src (pos + j)).cards := by
  rw [cardsSeq, cardsSeq, List.range_succ, List.flatMap_append]
  congr 1
  rw [List.flatMap_cons, List.flatMap_nil, List.append_nil]

theorem parse_single_page_success (src : Nat → SpecPage) (pos : Nat)
    (h : (src pos).status = CatalogParseStatus.success) :
    parse_single_page src pos =
      { status := CatalogParseStatus.success, cards := (src pos).cards,
        hasNext := (src pos).hasNext, nextUrl := some (pos + 1),
        errorState := none, errorUrl := none } := by
  rw [parse_single_page, if_pos h]

theorem finalResult_parts (cfg : CrawlCfg) (cu : Nat) (L : List Nat) (P : Nat)
    (hsp : cfg.singlePage = false) :
    (finalResult cfg cu L P).listings = L ∧
    (finalResult cfg cu L P).meta.processedPages = P ∧
    (finalResult cfg cu L P).processedPagesPriv = P ∧
    (finalResult cfg cu L P).meta.processedCards = L.length := by
  rw [finalResult]
  split <;> rw [build_result_proj _ _ _ _ _ _ _ _ _ hsp] <;>
    exact ⟨rfl, rfl, rfl, rfl⟩

theorem parseLoop_advance (w : PageWorld) (cfg : CrawlCfg) (cu : Nat) :
    ∀ (j fuel pos : Nat) (listings : List Nat) (processed : Nat),
      (∀ i, i < j → (w.src (pos + i)).status = CatalogParseStatus.success ∧
        (w.src (pos + i)).hasNext = true) →
      (∀ i, i < j → w.nav (pos + i + 1) = NavOutcome.ok) →
      (∀ m, cfg.maxPages = some m → processed + j < m) →
      parseLoop w cfg cu (j + fuel) pos listings processed =
        parseLoop w cfg cu fuel (pos + j)
          (listings ++ cardsSeq w.src pos j) (processed + j) := by
  intro j
  induction j with
  | zero =>
    intro fuel pos listings processed _ _ _
    simp [cardsSeq_zero]
  | succ j ih =>
    intro fuel pos listings processed hpages hnavs hbound
    have hpage0 := hpages 0 (by omega)
    rw [Nat.add_zero] at hpage0
    have hps := parse_single_page_success w.src pos hpage0.1
    have hb : ¬ budgetReached cfg.maxPages processed = true := by
      cases hm : cfg.maxPages with
      | none => simp [budgetReached]
      | some m =>
        have := hbound m hm
        simp [budgetReached]
        omega
    have hse : (parse_single_page w.src pos).status = CatalogParseStatus.success ∨
        (parse_single_page w.src pos).status = CatalogParseStatus.empty := by
      rw [hps]
      exact Or.inl rfl
    have hemp : ¬ (parse_single_page w.src pos).status =
        CatalogParseStatus.empty := by
      rw [hps]
      simp
    have hnext : ¬ (parse_single_page w.src pos).hasNext = false := by
      rw [hps]
      simp [hpage0.2]
    have hb2 : ¬ budgetReached cfg.maxPages (processed + 1) = true := by
      cases hm : cfg.maxPages with
      | none => simp [budgetReached]
      | some m =>
        have := hbound m hm
        simp [budgetReached]
        omega
    have hnav : w.nav (pos + 1) = NavOutcome.ok := by
      have := hnavs 0 (by omega)
      rwa [Nat.add_zero] at this
    have hfuel : (j + 1) + fuel = (j + fuel) + 1 := by omega
    rw [hfuel, parseLoop_nav_ok w cfg cu (j + fuel) pos listings processed hb
      hse hemp hnext hb2 hnav]
    have hrec := ih fuel (pos + 1) (listings ++ (parse_single_page w.src pos).cards)
      (processed + 1)
      (fun i hi => by
        have := hpages (i + 1) (by omega)
        rwa [show pos + (i + 1) = pos + 1 + i by omega] at this)
      (fun i hi => by
        have := hnavs (i + 1) (by omega)
        rwa [show pos + (i + 1) + 1 = pos + 1 + i + 1 by omega] at this)
      (fun m hm => by
        have := hbound m hm
        omega)
    rw [hrec, hps]
    rw [cardsSeq_succ_front, ← List.append_assoc]
    rw [show pos + (j + 1) = pos + 1 + j by omega,
      show processed + (j + 1) = processed + 1 + j by omega]

theorem parseLoop_zero (w : PageWorld) (cfg : CrawlCfg) (cu pos : Nat)
    (listings : List Nat) (processed : Nat) :
    parseLoop w cfg cu 0 pos listings processed =
      finalResult cfg cu listings processed := rfl

theorem parseLoop_meta (w : PageWorld) (cfg : CrawlCfg) (cu : Nat)
    (hsp : cfg.singlePage = false) :
    ∀ (fuel pos : Nat) (listings : List Nat) (processed : Nat),
      (parseLoop w cfg cu fuel pos listings processed).meta.processedCards =
        (parseLoop w cfg cu fuel pos listings processed).listings.length ∧
      (parseLoop w cfg cu fuel pos listings processed).processedPagesPriv =
        (parseLoop w cfg cu fuel pos listings processed).meta.processedPages := by
  intro fuel
  induction fuel with
  | zero =>
    intro pos listings processed
    rw [parseLoop_zero]
    obtain ⟨hl, hp, hpp, hc⟩ := finalResult_parts cfg cu listings processed hsp
    exact ⟨by rw [hc, hl], by rw [hpp, hp]⟩
  | succ n ih =>
    intro pos listings processed
    by_cases hb : budgetReached cfg.maxPages processed = true
    · rw [parseLoop_budget w cfg cu n pos listings processed hb]
      obtain ⟨hl, hp, hpp, hc⟩ := finalResult_parts cfg cu listings processed hsp
      exact ⟨by rw [hc, hl], by rw [hpp, hp]⟩
    · by_cases hse : (parse_single_page w.src pos).status =
          CatalogParseStatus.success ∨
          (parse_single_page w.src pos).status = CatalogParseStatus.empty
      · by_cases hemp : (parse_single_page w.src pos).status =
            CatalogParseStatus.empty
        · rw [parseLoop_page_empty w cfg cu n pos listings processed hb hse hemp]
          obtain ⟨hl, hp, hpp, hc⟩ := finalResult_parts cfg cu
            (listings ++ (parse_single_page w.src pos).cards) (processed + 1) hsp
          exact ⟨by rw [hc, hl], by rw [hpp, hp]⟩
        · by_cases hnext : (parse_single_page w.src pos).hasNext = false
          · rw [parseLoop_no_next w cfg cu n pos listings processed hb hse hemp
              hnext]
            obtain ⟨hl, hp, hpp, hc⟩ := finalResult_parts cfg cu
              (listings ++ (parse_single_page w.src pos).cards) (processed + 1) hsp
            exact ⟨by rw [hc, hl], by rw [hpp, hp]⟩
          · by_cases hb2 : budgetReached cfg.maxPages (processed + 1) = true
            · rw [parseLoop_budget_after w cfg cu n pos listings processed hb
                hse hemp hnext hb2]
              obtain ⟨hl, hp, hpp, hc⟩ := finalResult_parts cfg cu
                (listings ++ (parse_single_page w.src pos).cards) (processed + 1)
                hsp
              exact ⟨by rw [hc, hl], by rw [hpp, hp]⟩
            · cases hnav : w.nav (pos + 1) with
              | ok =>
                rw [parseLoop_nav_ok w cfg cu n pos listings processed hb hse
                  hemp hnext hb2 hnav]
                exact ih (pos + 1)
                  (listings ++ (parse_single_page w.src pos).cards) (processed + 1)
              | timeoutExhausted =>
                rw [parseLoop_nav_timeout w cfg cu n pos listings processed hb
                  hse hemp hnext hb2 hnav,
                  build_result_proj _ _ _ _ _ _ _ _ _ hsp]
                exact ⟨rfl, rfl⟩
              | serverExhausted =>
                rw [parseLoop_nav_server w cfg cu n pos listings processed hb
                  hse hemp hnext hb2 hnav,
                  build_result_proj _ _ _ _ _ _ _ _ _ hsp]
                exact ⟨rfl, rfl⟩
      · rw [parseLoop_site_abort w cfg cu n pos listings processed hb hse,
          build_result_proj _ _ _ _ _ _ _ _ _ hsp]
        exact ⟨rfl, rfl⟩

theorem parseLoop_shift (w : PageWorld) (cfg cfg2 : CrawlCfg) (cu cu2 k : Nat)
    (hsp : cfg.singlePage = false) (hsp2 : cfg2.singlePage = false)
    (hmp : cfg2.maxPages = cfg.maxPages.map (fun m => m - k))
    (hk : ∀ m, cfg.maxPages = some m → k ≤ m) :
    ∀ (fuel pos : Nat) (L0 listings : List Nat) (processed : Nat),
      (parseLoop w cfg cu fuel pos (L0 ++ listings) (k + processed)).listings =
        L0 ++ (parseLoop w cfg2 cu2 fuel pos listings processed).listings ∧
      (parseLoop w cfg cu fuel pos
          (L0 ++ listings) (k + processed)).meta.processedPages =
        k + (parseLoop w cfg2 cu2 fuel pos listings processed).meta.processedPages ∧
      (parseLoop w cfg cu fuel pos
          (L0 ++ listings) (k + processed)).processedPagesPriv =
        k + (parseLoop w cfg2 cu2 fuel pos listings processed).processedPagesPriv := by
  have hbeq : ∀ c, budgetReached cfg.maxPages (k + c) =
      budgetReached cfg2.maxPages c := by
    intro c
    cases hm : cfg.maxPages with
    | none =>
      rw [hmp, hm]
      rfl
    | some m =>
      rw [hmp, hm]
      have := hk m hm
      simp only [Option.map_some', budgetReached]
      by_cases hle : m ≤ k + c
      · rw [decide_eq_true hle, decide_eq_true (by omega : m - k ≤ c)]
      · rw [decide_eq_false hle, decide_eq_false (by omega : ¬ m - k ≤ c)]
  intro fuel
  induction fuel with
  | zero =>
    intro pos L0 listings processed
    rw [parseLoop_zero, parseLoop_zero]
    obtain ⟨hl1, hp1, hpp1, -⟩ := finalResult_parts cfg cu (L0 ++ listings)
      (k + processed) hsp
    obtain ⟨hl2, hp2, hpp2, -⟩ := finalResult_parts cfg2 cu2 listings processed hsp2
    exact ⟨by rw [hl1, hl2], by rw [hp1, hp2], by rw [hpp1, hpp2]⟩
  | succ n ih =>
    intro pos L0 listings processed
    by_cases hb : budgetReached cfg2.maxPages processed = true
    · have hb1 : budgetReached cfg.maxPages (k + processed) = true := by
        rw [hbeq]
        exact hb
      rw [parseLoop_budget w cfg cu n pos (L0 ++ listings) (k + processed) hb1,
        parseLoop_budget w cfg2 cu2 n pos listings processed hb]
      obtain ⟨hl1, hp1, hpp1, -⟩ := finalResult_parts cfg cu (L0 ++ listings)
        (k + processed) hsp
      obtain ⟨hl2, hp2, hpp2, -⟩ := finalResult_parts cfg2 cu2 listings processed
        hsp2
      exact ⟨by rw [hl1, hl2], by rw [hp1, hp2], by rw [hpp1, hpp2]⟩
    · have hb1 : ¬ budgetReached cfg.maxPages (k + processed) = true := by
        rw [hbeq]
        exact hb
      by_cases hse : (parse_single_page w.src pos).status =
          CatalogParseStatus.success ∨
          (parse_single_page w.src pos).status = CatalogParseStatus.empty
      · by_cases hemp : (parse_single_page w.src pos).status =
            CatalogParseStatus.empty
        · rw [parseLoop_page_empty w cfg cu n pos (L0 ++ listings)
              (k + processed) hb1 hse hemp,
            parseLoop_page_empty w cfg2 cu2 n pos listings processed hb hse hemp]
          obtain ⟨hl1, hp1, hpp1, -⟩ := finalResult_parts cfg cu
            ((L0 ++ listings) ++ (parse_single_page w.src pos).cards)
            (k + processed + 1) hsp
          obtain ⟨hl2, hp2, hpp2, -⟩ := finalResult_parts cfg2 cu2
            (listings ++ (parse_single_page w.src pos).cards) (processed + 1) hsp2
          refine ⟨?_, ?_, ?_⟩
          · rw [hl1, hl2, List.append_assoc]
          · rw [hp1, hp2]
            omega
          · rw [hpp1, hpp2]
            omega
        · by_cases hnext : (parse_single_page w.src pos).hasNext = false
          · rw [parseLoop_no_next w cfg cu n pos (L0 ++ listings)
                (k + processed) hb1 hse hemp hnext,
              parseLoop_no_next w cfg2 cu2 n pos listings processed hb hse hemp
                hnext]
            obtain ⟨hl1, hp1, hpp1, -⟩ := finalResult_parts cfg cu
              ((L0 ++ listings) ++ (parse_single_page w.src pos).cards)
              (k + processed + 1) hsp
            obtain ⟨hl2, hp2, hpp2, -⟩ := finalResult_parts cfg2 cu2
              (listings ++ (parse_single_page w.src pos).cards) (processed + 1)
              hsp2
            refine ⟨?_, ?_, ?_⟩
            · rw [hl1, hl2, List.append_assoc]
            · rw [hp1, hp2]
              omega
            · rw [hpp1, hpp2]
              omega
          · by_cases hb2 : budgetReached cfg2.maxPages (processed + 1) = true
            · have hb21 : budgetReached cfg.maxPages (k + processed + 1) = true := by
                have := hbeq (processed + 1)
                rw [show k + processed + 1 = k + (processed + 1) by omega]
                rw [this]
                exact hb2
              rw [parseLoop_budget_after w cfg cu n pos (L0 ++ listings)
                  (k + processed) hb1 hse hemp hnext hb21,
                parseLoop_budget_after w cfg2 cu2 n pos listings processed hb hse
                  hemp hnext hb2]
              obtain ⟨hl1, hp1, hpp1, -⟩ := finalResult_parts cfg cu
                ((L0 ++ listings) ++ (parse_single_page w.src pos).cards)
                (k + processed + 1) hsp
              obtain ⟨hl2, hp2, hpp2, -⟩ := finalResult_parts cfg2 cu2
                (listings ++ (parse_single_page w.src pos).cards) (processed + 1)
                hsp2
              refine ⟨?_, ?_, ?_⟩
              · rw [hl1, hl2, List.append_assoc]
              · rw [hp1, hp2]
                omega
              · rw [hpp1, hpp2]
                omega
            · have hb21 : ¬ budgetReached cfg.maxPages (k + processed + 1) = true := by
                have := hbeq (processed + 1)
                rw [show k + processed + 1 = k + (processed + 1) by omega]
                rw [this]
                exact hb2
              cases hnav : w.nav (pos + 1) with
              | ok =>
                rw [parseLoop_nav_ok w cfg cu n pos (L0 ++ listings)
                    (k + processed) hb1 hse hemp hnext hb21 hnav,
                  parseLoop_nav_ok w cfg2 cu2 n pos listings processed hb hse
                    hemp hnext hb2 hnav]
                have := ih (pos + 1)
                  L0 (listings ++ (parse_single_page w.src pos).cards)
                  (processed + 1)
                rw [show k + (processed + 1) = k + processed + 1 by omega] at this
                rw [← List.append_assoc] at this
                exact this
              | timeoutExhausted =>
                rw [parseLoop_nav_timeout w cfg cu n pos (L0 ++ listings)
                    (k + processed) hb1 hse hemp hnext hb21 hnav,
                  parseLoop_nav_timeout w cfg2 cu2 n pos listings processed hb
                    hse hemp hnext hb2 hnav,
                  build_result_proj _ _ _ _ _ _ _ _ _ hsp,
                  build_result_proj _ _ _ _ _ _ _ _ _ hsp2]
                dsimp only
                refine ⟨by rw [List.append_assoc], by omega, by omega⟩
              | serverExhausted =>
                rw [parseLoop_nav_server w cfg cu n pos (L0 ++ listings)
                    (k + processed) hb1 hse hemp hnext hb21 hnav,
                  parseLoop_nav_server w cfg2 cu2 n pos listings processed hb
                    hse hemp hnext hb2 hnav,
                  build_result_proj _ _ _ _ _ _ _ _ _ hsp,
                  build_result_proj _ _ _ _ _ _ _ _ _ hsp2]
                dsimp only
                refine ⟨by rw [List.append_assoc], by omega, by omega⟩
      · rw [parseLoop_site_abort w cfg cu n pos (L0 ++ listings)
            (k + processed) hb1 hse,
          parseLoop_site_abort w cfg2 cu2 n pos listings processed hb hse,
          build_result_proj _ _ _ _ _ _ _ _ _ hsp,
          build_result_proj _ _ _ _ _ _ _ _ _ hsp2]
        exact ⟨rfl, rfl, rfl⟩

theorem continue_from_resume (w : PageWorld) (prev : CatalogParseResult)
    (fc u m n0 : Nat)
    (hsp : prev.singlePagePriv = false)
    (hres : prev.resumeUrl = some u)
    (hmp : prev.maxPagesPriv = some m)
    (hrem : prev.processedPagesPriv < m)
    (hrpn : prev.resumePageNumber = some n0) (hn0 : ¬ n0 = 0) :
    continue_from w prev (some false) 0 false EntryOutcome.proceed fc =
      (parse_catalog w EntryOutcome.proceed u u
        { fields := prev.fieldsPriv,
          maxPages := some (m - prev.processedPagesPriv),
          sort := prev.sortPriv, startPage := n0,
          includeHtml := prev.includeHtmlPriv,
          maxCaptchaAttempts := prev.maxCaptchaAttemptsPriv,
          loadTimeout := prev.loadTimeoutPriv,
          loadRetries := prev.loadRetriesPriv, singlePage := false } fc).map
        (fun cont =>
          { status := cont.status, listings := prev.listings ++ cont.listings,
            meta :=
              { status := cont.status,
                processedPages := prev.processedPagesPriv + cont.processedPagesPriv,
                processedCards := (prev.listings ++ cont.listings).length,
                lastState := cont.errorState,
                lastUrl := cont.errorUrl.orElse (fun _ => cont.resumeUrl) },
            errorState := cont.errorState, errorUrl := cont.errorUrl,
            resumeUrl := cont.resumeUrl,
            resumePageNumber := cont.resumePageNumber,
            catalogUrlPriv := prev.catalogUrlPriv,
            fieldsPriv := prev.fieldsPriv, maxPagesPriv := prev.maxPagesPriv,
            sortPriv := prev.sortPriv, startPagePriv := prev.startPagePriv,
            includeHtmlPriv := prev.includeHtmlPriv,
            maxCaptchaAttemptsPriv := prev.maxCaptchaAttemptsPriv,
            loadTimeoutPriv := prev.loadTimeoutPriv,
            loadRetriesPriv := prev.loadRetriesPriv,
            processedPagesPriv := prev.processedPagesPriv + cont.processedPagesPriv,
            singlePagePriv := false }) := by
  have hz : ¬ m - prev.processedPagesPriv = 0 := by omega
  rw [continue_from]
  simp only [hsp, hres, hmp, hrpn, hz, hn0, Bool.false_eq_true, if_false,
    if_neg hz, if_neg hn0, ite_true, if_true]
  cases hpc : parse_catalog w EntryOutcome.proceed u u
      { fields := prev.fieldsPriv,
        maxPages := some (m - prev.processedPagesPriv),
        sort := prev.sortPriv, startPage := n0,
        includeHtml := prev.includeHtmlPriv,
        maxCaptchaAttempts := prev.maxCaptchaAttemptsPriv,
        loadTimeout := prev.loadTimeoutPriv,
        loadRetries := prev.loadRetriesPriv, singlePage := false } fc with
  | error e => rfl
  | ok cont => rfl

theorem exceptMap_ok {A B C : Type} (f : B → C) (x : B) :
    (Except.ok x : Except A B).map f = Except.ok (f x) := rfl

/-- C4: on a deterministic page source, stopping a bounded `parse_catalog`
run after page `k` (a load-timeout abort on the navigation to page `k + 1`)
and resuming the remainder through the result's cursor via `continue_from`
yields exactly the listings, listing count and processed-page count of one
uninterrupted run over the same pages — the merge of the two partial runs is
associative in these totals. -/
theorem catalog_stop_resume_merge (src : Nat → SpecPage) (cfg : CrawlCfg)
    (cu p0 m k fc : Nat)
    (hm : cfg.maxPages = some m) (hsp : cfg.singlePage = false)
    (hstart : 1 ≤ cfg.startPage) (hk1 : 1 ≤ k) (hkm : k < m)
    (hpages : ∀ i, i < k → (src (p0 + i)).status = CatalogParseStatus.success ∧
      (src (p0 + i)).hasNext = true) :
    ∀ r1 rFull rMerged,
      parse_catalog
        { src := src,
          nav := fun u => if u = p0 + k then NavOutcome.timeoutExhausted
            else NavOutcome.ok }
        EntryOutcome.proceed cu p0 cfg (k + 1) = Except.ok r1 →
      parse_catalog { src := src, nav := fun _ => NavOutcome.ok }
        EntryOutcome.proceed cu p0 cfg (k + fc) = Except.ok rFull →
      continue_from { src := src, nav := fun _ => NavOutcome.ok } r1
        (some false) 0 false EntryOutcome.proceed fc = Except.ok rMerged →
      rMerged.listings = rFull.listings ∧
      rMerged.meta.processedPages = rFull.meta.processedPages ∧
      rMerged.meta.processedCards = rFull.meta.processedCards := by
  intro r1 rFull rMerged hR1 hRFull hRM
  obtain ⟨j, rfl⟩ : ∃ j, k = j + 1 := ⟨k - 1, by omega⟩
  have hpagej := hpages j (by omega)
  have hpsj := parse_single_page_success src (p0 + j) hpagej.1
  -- Step 1: the aborted run is the load-timeout result after j + 1 pages.
  rw [parse_catalog_proceed _ cu p0 cfg (j + 1 + 1) hsp] at hR1
  have hr1 : parseLoop
      { src := src,
        nav := fun u => if u = p0 + (j + 1) then NavOutcome.timeoutExhausted
          else NavOutcome.ok }
      cfg cu (j + 1 + 1) p0 [] 0 = r1 := Except.ok.inj hR1
  rw [show j + 1 + 1 = j + 2 from rfl,
    parseLoop_advance _ cfg cu j 2 p0 [] 0
      (fun i hi => hpages i (by omega))
      (fun i hi => by
        show (if p0 + i + 1 = p0 + (j + 1) then NavOutcome.timeoutExhausted
          else NavOutcome.ok) = NavOutcome.ok
        rw [if_neg (by omega)])
      (fun m2 hm2 => by
        rw [hm] at hm2
        injection hm2 with hm2
        omega)] at hr1
  rw [parseLoop_nav_timeout _ cfg cu 1 (p0 + j) ([] ++ cardsSeq src p0 j) (0 + j)
      (by
        rw [hm]
        simp [budgetReached]
        omega)
      (by rw [hpsj]; exact Or.inl rfl)
      (by rw [hpsj]; simp)
      (by rw [hpsj]; simp [hpagej.2])
      (by
        rw [hm]
        simp [budgetReached]
        omega)
      (by
        show (if p0 + j + 1 = p0 + (j + 1) then NavOutcome.timeoutExhausted
          else NavOutcome.ok) = NavOutcome.timeoutExhausted
        rw [if_pos (by omega)])] at hr1
  rw [hpsj, List.nil_append] at hr1
  rw [show cardsSeq src p0 j ++ (src (p0 + j)).cards = cardsSeq src p0 (j + 1)
      from (cardsSeq_succ_back src p0 j).symm] at hr1
  rw [show (0 + j) + 1 = j + 1 by omega] at hr1
  subst hr1
  -- Step 2: rewrite the resumption through the cursor.
  rw [build_result_proj _ _ _ _ _ _ _ _ _ hsp] at hRM
  rw [continue_from_resume _ _ fc (p0 + j + 1) m (cfg.startPage + (j + 1))
      rfl rfl (by dsimp only; exact hm) (by dsimp only; omega) rfl
      (by omega)] at hRM
  dsimp only at hRM
  rw [parse_catalog_proceed _ _ _ _ fc rfl] at hRM
  rw [exceptMap_ok] at hRM
  have hmg := (Except.ok.inj hRM).symm
  -- Step 3: reduce the uninterrupted run past its first j + 1 pages.
  rw [parse_catalog_proceed _ cu p0 cfg (j + 1 + fc) hsp] at hRFull
  have hfull : parseLoop { src := src, nav := fun _ => NavOutcome.ok }
      cfg cu (j + 1 + fc) p0 [] 0 = rFull := Except.ok.inj hRFull
  rw [parseLoop_advance _ cfg cu (j + 1) fc p0 [] 0
      (fun i hi => hpages i hi)
      (fun i hi => rfl)
      (fun m2 hm2 => by
        rw [hm] at hm2
        injection hm2 with hm2
        omega)] at hfull
  rw [List.nil_append] at hfull
  -- Step 4: relate the continuation loop to the tail of the full run.
  obtain ⟨hls, hps, hpps⟩ := parseLoop_shift
    { src := src, nav := fun _ => NavOutcome.ok } cfg
    { fields := cfg.fields, maxPages := some (m - (j + 1)), sort := cfg.sort,
      startPage := cfg.startPage + (j + 1), includeHtml := cfg.includeHtml,
      maxCaptchaAttempts := cfg.maxCaptchaAttempts,
      loadTimeout := cfg.loadTimeout, loadRetries := cfg.loadRetries,
      singlePage := false }
    cu (p0 + j + 1) (j + 1) hsp rfl
    (by rw [hm]; rfl)
    (fun m2 hm2 => by
      rw [hm] at hm2
      injection hm2 with hm2
      omega)
    fc (p0 + j + 1) (cardsSeq src p0 (j + 1)) [] 0
  rw [List.append_nil] at hls hps hpps
  rw [show p0 + (j + 1) = p0 + j + 1 by omega,
    show 0 + (j + 1) = j + 1 by omega] at hfull
  obtain ⟨hcCards, hcPriv⟩ := parseLoop_meta
    { src := src, nav := fun _ => NavOutcome.ok }
    { fields := cfg.fields, maxPages := some (m - (j + 1)), sort := cfg.sort,
      startPage := cfg.startPage + (j + 1), includeHtml := cfg.includeHtml,
      maxCaptchaAttempts := cfg.maxCaptchaAttempts,
      loadTimeout := cfg.loadTimeout, loadRetries := cfg.loadRetries,
      singlePage := false }
    (p0 + j + 1) rfl fc (p0 + j + 1) [] 0
  obtain ⟨hfCards, -⟩ := parseLoop_meta
    { src := src, nav := fun _ => NavOutcome.ok } cfg cu hsp
    fc (p0 + j + 1) (cardsSeq src p0 (j + 1)) (j + 1)
  rw [show (j + 1) + 0 = j + 1 by omega] at hls hps hpps
  refine ⟨?_, ?_, ?_⟩
  · rw [hmg, ← hfull]
    dsimp only
    rw [hls]
  · rw [hmg, ← hfull]
    dsimp only
    rw [hps, hcPriv]
  · rw [hmg, ← hfull]
    dsimp only
    rw [hfCards, hls]

/-- Witness: on the 3-page catalog bounded to 2 pages, aborting after page 1
(timeout navigating to page 2) and resuming through the cursor gives the same
listings, page count and card count as the uninterrupted 2-page run. -/
theorem catalog_stop_resume_merge_witness :
    parse_catalog worldAbortAfterOne EntryOutcome.proceed 1 1 cfgTwoPages 2 =
      Except.ok resAborted ∧
    parse_catalog worldOkThree EntryOutcome.proceed 1 1 cfgTwoPages 3 =
      Except.ok resFull ∧
    continue_from worldOkThree resAborted (some false) 0 false
      EntryOutcome.proceed 2 = Except.ok resMerged ∧
    (resMerged.listings = resFull.listings ∧
      resMerged.meta.processedPages = resFull.meta.processedPages ∧
      resMerged.meta.processedCards = resFull.meta.processedCards) := by
  have h1 : parse_catalog worldAbortAfterOne EntryOutcome.proceed 1 1
      cfgTwoPages 2 = Except.ok resAborted := by rfl
  have h2 : parse_catalog worldOkThree EntryOutcome.proceed 1 1 cfgTwoPages 3 =
      Except.ok resFull := by rfl
  have h3 : continue_from worldOkThree resAborted (some false) 0 false
      EntryOutcome.proceed 2 = Except.ok resMerged := by rfl
  refine ⟨h1, h2, h3, ?_⟩
  exact catalog_stop_resume_merge srcThreePages cfgTwoPages 1 1 2 1 2
    rfl rfl (by decide) (by decide) (by decide) (by decide)
    resAborted resFull resMerged h1 h2 h3

end AvitoLibrary
